import Mathlib

/-!
Shallow embedding of the retrieval-evaluation engine of the Mobius repository.

Sources embedded here:
  * `mobius-qa/retrieval-eval/bm25_eval.py`               (namespace `BM25Eval`)
  * `mobius-qa/retrieval-eval-studio/app/main.py`         (namespace `Studio`)

Modelling conventions:
  * Python `float` values are modelled as exact numbers: scores and thresholds
    that are only stored, compared and sorted are `ℚ`; values produced by the
    transcendental sigmoid are `ℝ`.  Binary floating-point rounding and
    overflow are not modelled.
  * Python strings are Lean `String`s; `str.lower`, `str.strip`, slicing and
    the substring test `in` are re-implemented below on the character list.
  * External libraries (the `re` module, `rank_bm25.BM25Okapi`, the Vertex
    embedding / vector-search clients, `psycopg2` row fetches) are oracle
    parameters of the embedding, collected in `Studio.Env`; repository code
    is translated, not parameterised.
  * Python exceptions are an `Except` monad; an exception value is the pair
    (type name, message), matching `f"{type(e).__name__}: {e}"`.
-/

namespace Mobius

/-! ### String helpers (ASCII models of Python `str` methods) -/

/-- Model of Python `str.lower` for ASCII letters. -/
def lowerChar (c : Char) : Char :=
  if 'A' ≤ c ∧ c ≤ 'Z' then Char.ofNat (c.toNat + 32) else c

/-- Model of Python `str.lower`. -/
def strLower (s : String) : String := ⟨s.data.map lowerChar⟩

/-- ASCII whitespace, as stripped by Python `str.strip`. -/
def isWs (c : Char) : Bool := c = ' ' ∨ c = '\t' ∨ c = '\n' ∨ c = '\r'

/-- Model of Python `str.strip`. -/
def strTrim (s : String) : String :=
  ⟨((s.data.dropWhile isWs).reverse.dropWhile isWs).reverse⟩

/-- Model of Python slicing `s[:n]`. -/
def strTake (s : String) (n : ℕ) : String := ⟨s.data.take n⟩

/-- Whether `needle` occurs at the start of `hay`. -/
def startsWith : List Char → List Char → Bool
  | _, [] => true
  | [], _ :: _ => false
  | h :: ht, n :: nt => h = n && startsWith ht nt

/-- Whether `needle` occurs contiguously anywhere in `hay`. -/
def hasSub (needle : List Char) : List Char → Bool
  | [] => needle.isEmpty
  | h :: t => startsWith (h :: t) needle || hasSub needle t

/-- Model of the Python substring test `needle in hay`. -/
def strContains (hay needle : String) : Bool := hasSub needle.data hay.data

/-- Model of Python `s.replace("\n", " ")`. -/
def replaceNl (s : String) : String :=
  ⟨s.data.map (fun c => if c = '\n' then ' ' else c)⟩

/-! ### List helpers -/

/-- Stable insertion used by `pySorted`. -/
def insertBy (le : α → α → Bool) (a : α) : List α → List α
  | [] => [a]
  | b :: t => if le a b then a :: b :: t else b :: insertBy le a t

/-- Stable sort modelling Python `sorted` / `list.sort` (Python's sort is
stable, so any stable sorting algorithm has the same input-output
behaviour). -/
def pySorted (le : α → α → Bool) : List α → List α
  | [] => []
  | a :: t => insertBy le a (pySorted le t)

/-- Model of Python `max(l)` for a nonempty list (`0` on the empty list,
which callers below always guard against). -/
def maxList : List ℚ → ℚ
  | [] => 0
  | a :: t => t.foldl max a

/-- Model of Python `round` (banker's rounding, half to even). -/
def pyRound (q : ℚ) : ℤ :=
  let f : ℤ := ⌊q⌋
  if q - f < 1/2 then f
  else if (1/2 : ℚ) < q - f then f + 1
  else if f % 2 = 0 then f else f + 1

/-! ### Data model

Mirrors the dataclasses and (well-typed) dict shapes of the source.  The
`gold` dict's string-or-list fields are modelled after the string-to-list
coercion the source performs. -/

/-- Gold specification attached to a question (`q["gold"]`). -/
structure Gold where
  parent_metadata_ids : List String := []
  answer_contains : List String := []
  crux_contains : List String := []
  answer_regex : Option String := none
  expect_in_manual : Option Bool := none
deriving Repr, DecidableEq, Inhabited

/-- One loaded question row. -/
structure Question where
  id : String := ""
  intent : String := ""
  bucket : String := ""
  question : String := ""
  gold : Gold := {}
deriving Repr, DecidableEq, Inhabited

/-- Sentence-level candidate (`SentenceDoc` dataclass in both sources). -/
structure SentenceDoc where
  sid : String := ""
  parent_metadata_id : String := ""
  sentence_text : String := ""
  page_number : Option ℤ := none
  section_path : Option String := none
  chapter_path : Option String := none
  document_display_name : Option String := none
deriving Repr, DecidableEq, Inhabited

/-- Result of `_gold_match_candidate`. -/
structure MatchInfo where
  matched : Bool
  why : Option String
deriving Repr, DecidableEq, Inhabited

/-- Oracle for `re.search(pattern, text, flags=re.IGNORECASE)`: `.error ()`
models `re.error` raised on an invalid pattern. -/
def RegexOracle : Type := String → String → Except Unit Bool

/-- Model of `_gold_expect_in_manual` (identical in both sources). -/
def goldExpectInManual (q : Question) : Bool :=
  match q.gold.expect_in_manual with
  | some b => b
  | none => strLower (strTrim q.bucket) ≠ "out_of_manual"

/-- The substring needles of a gold spec: `answer_contains` entries then
`crux_contains` entries, each stripped, empty ones dropped (the loop over
`("answer_contains", "crux_contains")` in `_gold_match_candidate`). -/
def goldContainsNeedles (g : Gold) : List String :=
  ((g.answer_contains ++ g.crux_contains).map strTrim).filter (fun s => s ≠ "")

/-- Model of `_gold_match_candidate` (identical logic in
`bm25_eval.py` and `retrieval-eval-studio/app/main.py`): parent-id rule,
then substring rules in list order, then the regex rule; `re.error` from a
malformed pattern is swallowed and treated as no match. -/
def goldMatchCandidate (rx : RegexOracle) (g : Gold) (cand : SentenceDoc) :
    MatchInfo :=
  let parentIds := g.parent_metadata_ids.filter (fun x => x ≠ "")
  if parentIds ≠ [] ∧ cand.parent_metadata_id ∈ parentIds then
    ⟨true, some "parent_metadata_id"⟩
  else
    let hay := strLower cand.sentence_text
    match (goldContainsNeedles g).find?
        (fun needle => strContains hay (strLower needle)) with
    | some needle => ⟨true, some ("contains:" ++ strTake needle 48)⟩
    | none =>
      match g.answer_regex with
      | some p =>
        if strTrim p ≠ "" then
          match rx p cand.sentence_text with
          | .ok true => ⟨true, some "answer_regex"⟩
          | .ok false => ⟨false, none⟩
          | .error _ => ⟨false, none⟩
        else ⟨false, none⟩
      | none => ⟨false, none⟩

/-! ### Score calibration -/

/-- Sorted copy of a score list (`sorted(...)` / `xs.sort()` with the default
ascending comparison). -/
def sortedScores (xs : List ℚ) : List ℚ := pySorted (fun a b => decide (a ≤ b)) xs

/-- Nearest-rank quantile used by `bm25_eval._sigmoid_params_from_max_raw`:
`idx = int(round(p * (len(xs) - 1)))` on the sorted list. -/
def nearestRankQuantile (xs : List ℚ) (p : ℚ) : ℚ :=
  let p' := max 0 (min 1 p)
  let idx := (pyRound (p' * ((xs.length : ℚ) - 1))).toNat
  xs.getD idx 0

namespace BM25Eval

/-- Model of `bm25_eval._sigmoid`, the numerically stable sigmoid that
branches on the sign of the argument; over `ℝ` both branches equal
`1 / (1 + exp (-x))`. -/
noncomputable def sigmoid (x : ℝ) : ℝ :=
  if 0 ≤ x then 1 / (1 + Real.exp (-x))
  else Real.exp x / (1 + Real.exp x)

/-- Model of `bm25_eval._sigmoid_params_from_max_raw`: quartile-based global
calibration.  `a = math.log(0.75 / 0.25) = log 3` and
`k = 2 a / (q75 - q25)`. -/
noncomputable def sigmoid_params_from_max_raw (max_raw_scores : List ℚ) :
    ℝ × ℝ :=
  if max_raw_scores = [] then (1, 0)
  else
    let xs := sortedScores max_raw_scores
    if xs.length < 4 then (1, ((xs.getD (xs.length / 2) 0 : ℚ) : ℝ))
    else
      let q25 := nearestRankQuantile xs (1/4)
      let q75 := nearestRankQuantile xs (3/4)
      if |q75 - q25| < 1/1000000000 then
        (1, ((nearestRankQuantile xs (1/2) : ℚ) : ℝ))
      else
        ((2 * Real.log 3) / (((q75 : ℚ) : ℝ) - ((q25 : ℚ) : ℝ)),
         (((q25 + q75) / 2 : ℚ) : ℝ))

end BM25Eval

namespace Studio

/-- Model of the studio's `_sigmoid(x, k, x0)`: note the source approximates
Euler's number by the literal `2.718281828` and uses `pow`; the
`try/except` guard (float overflow) has no counterpart over `ℝ`. -/
noncomputable def sigmoid (x k x0 : ℝ) : ℝ :=
  1 / (1 + (2.718281828 : ℝ) ^ (-(k * (x - x0))))

/-- Model of the studio's `_sigmoid_normalize`. -/
noncomputable def sigmoid_normalize (raw_scores : List ℚ) (k x0 : ℚ) :
    List ℝ :=
  raw_scores.map (fun (s : ℚ) => sigmoid ((s : ℚ) : ℝ) ((k : ℚ) : ℝ) ((x0 : ℚ) : ℝ))

/-- Model of the studio's `_sigmoid_params_from_max_raw`: median / 90th
percentile based calibration (`int(len(xs) * 0.9)` is modelled exactly as
`9 * len / 10`, with Python's `max(0, idx - 1)` being `ℕ` subtraction).
The `x is not None` input filter has no counterpart since scores are `ℚ`
here. -/
def sigmoid_params_from_max_raw (max_raw_scores : List ℚ) : ℚ × ℚ :=
  if max_raw_scores = [] then (1, 0)
  else
    let xs := sortedScores max_raw_scores
    let p50 := xs.getD (xs.length / 2) 0
    let p90 := xs.getD (9 * xs.length / 10 - 1) 0
    let x0 := p50
    let denom := if p90 ≠ p50 then p90 - p50 else |p50| + 1/1000000
    ((2.2 : ℚ) / denom, x0)

/-- Model of the studio's `_similarity_from_distance`:
`max(0, min(1, 1 - d/2))`, `None` propagating. -/
def similarityFromDistance : Option ℚ → Option ℚ
  | none => none
  | some d => some (max 0 (min 1 (1 - d / 2)))

/-- Characters kept by `_tokenize` (`re.findall(r"[a-z0-9]+", text.lower())`
keeps lowercase letters and digits of the lowered text). -/
def isTokChar (c : Char) : Bool :=
  ('a' ≤ c ∧ c ≤ 'z') ∨ ('0' ≤ c ∧ c ≤ '9')

/-- Maximal runs of token characters (accumulator-based scan). -/
def tokenizeAux : List Char → List Char → List String
  | [], acc => if acc = [] then [] else [⟨acc.reverse⟩]
  | c :: rest, acc =>
    if isTokChar c then tokenizeAux rest (c :: acc)
    else if acc = [] then tokenizeAux rest []
    else ⟨acc.reverse⟩ :: tokenizeAux rest []

/-- Model of the studio's `_tokenize`. -/
def tokenize (text : String) : List String :=
  tokenizeAux (strLower text).data []

/-- One fetched `published_rag_metadata` row (the dict shape that
`_fetch_paragraphs` / `_fetch_paragraphs_for_documents` return). -/
structure ParagraphRow where
  id : String := ""
  document_id : String := ""
  text : String := ""
  page_number : Option ℤ := none
  section_path : Option String := none
  chapter_path : Option String := none
  document_display_name : Option String := none
deriving Repr, DecidableEq, Inhabited

/-- Model of the studio's `_build_sentence_corpus`; the regex-driven
`_split_sentences` is the oracle `split`.  `re.search(r"\.{6,}", txt[:250])`
is exactly the test that six consecutive dots occur in the first 250
characters. -/
def buildSentenceCorpus (split : String → List String)
    (paragraph_rows : List ParagraphRow) : List SentenceDoc :=
  paragraph_rows.flatMap (fun r =>
    let pid := r.id
    let txt := strTrim r.text
    if pid = "" ∨ txt = "" then []
    else if strContains (strTake txt 250) "......" then []
    else
      (List.enumFrom 1 (split txt)).filterMap (fun (is : ℕ × String) =>
        if is.2.length < 25 then none
        else some
          { sid := pid ++ ":" ++ toString is.1
            parent_metadata_id := pid
            sentence_text := is.2
            page_number := r.page_number
            section_path := r.section_path
            chapter_path := r.chapter_path
            document_display_name := r.document_display_name }))

/-- One neighbor returned by `_vertex_find_neighbors` (already reduced to
`{"id": ..., "distance": ...}` dicts by that function). -/
structure Neighbor where
  id : String := ""
  distance : Option ℚ := none
deriving Repr, DecidableEq, Inhabited

/-- One `published_rag_metadata` row as returned by `_fetch_metadata_by_id`. -/
structure MetaRow where
  document_id : String := ""
  document_display_name : String := ""
  text : String := ""
  page_number : Option ℤ := none
  source_type : Option String := none
deriving Repr, DecidableEq, Inhabited

/-- An in-flight Python exception: type name and message
(`f"{type(e).__name__}: {e}"`). -/
structure Exc where
  ty : String
  msg : String
deriving Repr, DecidableEq, Inhabited

/-- The studio's external dependencies, as oracles: environment variables,
the sentence splitter (`re`), the two corpus fetches (`psycopg2`), BM25
scoring (`rank_bm25`), regex search (`re`), Vertex config / embedding /
vector search, metadata fetch, and the suite's question rows. -/
structure Env where
  chat_db_url : String := ""
  split : String → List String := fun _ => []
  fetchParagraphs : String → String → List ParagraphRow := fun _ _ => []
  fetchParagraphsForDocuments : String → List String → List ParagraphRow :=
    fun _ _ => []
  getScores : List (List String) → List String → List ℚ := fun _ _ => []
  rx : RegexOracle := fun _ _ => .ok false
  vertexCfgOk : Bool := true
  embedQuery : String → Except Exc (List ℚ) := fun _ => .ok []
  findNeighbors : List ℚ → ℕ → Option String → Option String →
    Option String → Option String → Except Exc (List Neighbor) :=
    fun _ _ _ _ _ _ => .ok []
  fetchMetadataById : List String → List (String × MetaRow) := fun _ => []
  suiteExists : Bool := true
  questions : List Question := []

/-- Per-question summary produced by the BM25 loop of `_run_bm25_eval`. -/
structure BmPerQ where
  qid : String := ""
  intent : String := ""
  bucket : String := ""
  question : String := ""
  expect_in_manual : Bool := false
  gold_best_rank : Option ℕ := none
  gold_match_why : Option String := none
  max_norm_score : Option ℝ := none
  would_answer : Bool := false
  false_positive_answer : Bool := false

/-- One ranked BM25 result row produced by `_run_bm25_eval`. -/
structure BmRow where
  qid : String := ""
  rank : ℕ := 0
  parent_metadata_id : String := ""
  sentence_text : String := ""
  page_number : Option ℤ := none
  raw_score : ℚ := 0
  norm_score : ℝ := 0
  is_match : Bool := false
  match_why : Option String := none

/-- Indices of the top-`k` raw scores, descending, ties in original order:
`sorted(range(len(raw)), key=lambda j: raw[j], reverse=True)[:top_k]`
(Python's sort is stable; `reverse=True` keeps equal keys in original
order, which the comparison `raw[j] ≤ raw[i]` reproduces under a stable
sort). -/
def topKIdxs (raw : List ℚ) (top_k : ℕ) : List ℕ :=
  (pySorted (fun i j => decide (raw.getD j 0 ≤ raw.getD i 0))
    (List.range raw.length)).take top_k

/-- Raw BM25 scores for one question: `bm25.get_scores(_tokenize(q))`. -/
def rawScores (env : Env) (tokenized : List (List String)) (q : Question) :
    List ℚ :=
  env.getScores tokenized (tokenize q.question)

/-- The per-question max raw score list feeding global calibration
(`float(max(raw)) if len(raw) else 0.0`; the enclosing `try/except` can
only fire on the guarded empty-sequence case). -/
def maxRawScores (env : Env) (tokenized : List (List String))
    (questions : List Question) : List ℚ :=
  questions.map (fun q =>
    let raw := rawScores env tokenized q
    if raw = [] then 0 else maxList raw)

/-- The per-question summary record built by the body of the main loop of
`_run_bm25_eval`. -/
noncomputable def bm25PerQuestion (env : Env) (tokenized : List (List String))
    (corpus : List SentenceDoc) (kx : ℚ × ℚ) (top_k : ℕ)
    (abstain_threshold : ℚ) (q : Question) : BmPerQ :=
  let raw := rawScores env tokenized q
  let idxs := topKIdxs raw top_k
  let raw_top := idxs.map (fun j => raw.getD j 0)
  let docs_top := idxs.map (fun j => corpus.getD j default)
  let norm_top := sigmoid_normalize raw_top kx.1 kx.2
  let max_norm : Option ℝ := norm_top.head?
  let expect_in_manual := goldExpectInManual q
  let would_answer :=
    match max_norm with
    | some v => decide ((abstain_threshold : ℝ) ≤ v)
    | none => false
  let fp := !expect_in_manual && would_answer
  let best :=
    match docs_top.findIdx? (fun d => (goldMatchCandidate env.rx q.gold d).matched) with
    | some i =>
      some (i + 1, (goldMatchCandidate env.rx q.gold (docs_top.getD i default)).why)
    | none => none
  { qid := strTrim q.id
    intent := strLower (strTrim q.intent)
    bucket := strLower (strTrim q.bucket)
    question := q.question
    expect_in_manual := expect_in_manual
    gold_best_rank := best.map (fun b => b.1)
    gold_match_why := (best.map (fun b => b.2)).getD none
    max_norm_score := max_norm
    would_answer := would_answer
    false_positive_answer := fp }

/-- The ranked rows built by the body of the main loop of `_run_bm25_eval`
(rank from `enumerate(..., start=1)` over the zipped top-K lists). -/
noncomputable def bm25QuestionRows (env : Env) (tokenized : List (List String))
    (corpus : List SentenceDoc) (kx : ℚ × ℚ) (top_k : ℕ) (q : Question) :
    List BmRow :=
  let raw := rawScores env tokenized q
  let idxs := topKIdxs raw top_k
  let raw_top := idxs.map (fun j => raw.getD j 0)
  let docs_top := idxs.map (fun j => corpus.getD j default)
  let norm_top := sigmoid_normalize raw_top kx.1 kx.2
  (List.enumFrom 1 (docs_top.zip (raw_top.zip norm_top))).map
    (fun (e : ℕ × SentenceDoc × ℚ × ℝ) =>
      let m := goldMatchCandidate env.rx q.gold e.2.1
      { qid := strTrim q.id
        rank := e.1
        parent_metadata_id := e.2.1.parent_metadata_id
        sentence_text := e.2.1.sentence_text
        page_number := e.2.1.page_number
        raw_score := e.2.2.1
        norm_score := e.2.2.2
        is_match := m.matched
        match_why := m.why })

/-- The corpus-scope selection of `_run_bm25_eval`: fetch by explicit
document ids when given, otherwise by authority level (which must then be
present). -/
def fetchScopedParagraphs (env : Env) (authority_level : Option String)
    (document_ids : List String) : Except Exc (List ParagraphRow) :=
  if document_ids ≠ [] then
    .ok (env.fetchParagraphsForDocuments env.chat_db_url document_ids)
  else
    match authority_level with
    | none => .error ⟨"RuntimeError",
        "BM25 eval requires either authority_level or document_ids"⟩
    | some a => .ok (env.fetchParagraphs env.chat_db_url a)

/-- Model of the studio's `_run_bm25_eval`. -/
noncomputable def runBm25Eval (env : Env) (authority_level : Option String)
    (document_ids : List String) (questions : List Question) (top_k : ℕ)
    (abstain_threshold : ℚ) : Except Exc (List BmPerQ × List BmRow) :=
  if env.chat_db_url = "" then
    .error ⟨"RuntimeError",
      "CHAT_RAG_DATABASE_URL (or CHAT_DATABASE_URL) must be set for BM25 corpus"⟩
  else
    match fetchScopedParagraphs env authority_level document_ids with
    | .error e => .error e
    | .ok paras =>
      let corpus := buildSentenceCorpus env.split paras
      if corpus = [] then
        .error ⟨"RuntimeError", "No corpus sentences found for authority_level"⟩
      else
        let tokenized := corpus.map (fun d => tokenize d.sentence_text)
        let kx := sigmoid_params_from_max_raw (maxRawScores env tokenized questions)
        .ok
          (questions.map
            (bm25PerQuestion env tokenized corpus kx top_k abstain_threshold),
           questions.flatMap (bm25QuestionRows env tokenized corpus kx top_k))

/-- Per-question summary produced by `_run_hier_eval`. -/
structure HierPerQ where
  qid : String := ""
  intent : String := ""
  bucket : String := ""
  question : String := ""
  expect_in_manual : Bool := false
  gold_best_rank : Option ℕ := none
  top1_similarity : Option ℚ := none
  would_answer : Bool := false
  false_positive_answer : Bool := false
deriving Repr, DecidableEq, Inhabited

/-- One ranked vector-search row produced by `_run_hier_eval`. -/
structure HierRow where
  qid : String := ""
  rank : ℕ := 0
  neighbor_id : String := ""
  similarity : Option ℚ := none
  page_number : Option ℤ := none
  source_type : Option String := none
  snippet : String := ""
  is_match : Bool := false
  match_why : Option String := none
deriving Repr, DecidableEq, Inhabited

/-- The document post-filter loop of `_run_hier_eval` (appends neighbors of
allowed documents, breaking once `top_k` are collected; the break test runs
after every iteration's conditional append). -/
def postFilterLoop (metaOf : String → MetaRow) (docAllow : List String)
    (top_k : ℕ) (acc : List Neighbor) : List Neighbor → List Neighbor
  | [] => acc
  | n :: rest =>
    let did := (metaOf n.id).document_id
    let acc' := if did ≠ "" ∧ did ∈ docAllow then acc ++ [n] else acc
    if top_k ≤ acc'.length then acc'
    else postFilterLoop metaOf docAllow top_k acc' rest

/-- The pure tail of the per-question body of `_run_hier_eval`, once the
neighbors have been fetched: metadata fetch, optional document post-filter,
parent-id-only gold matching, similarity and row construction. -/
def hierQuestionBody (env : Env) (docAllow : List String) (top_k : ℕ)
    (answer_threshold : ℚ) (q : Question) (neigh0 : List Neighbor) :
    HierPerQ × List HierRow :=
  let goldSet := q.gold.parent_metadata_ids.filter (fun x => strTrim x ≠ "")
  let ids := neigh0.filterMap (fun n => if n.id ≠ "" then some n.id else none)
  let meta := env.fetchMetadataById ids
  let metaOf := fun nid =>
    ((meta.find? (fun p => p.1 = nid)).map (fun p => p.2)).getD default
  let neigh :=
    if docAllow ≠ [] then postFilterLoop metaOf docAllow top_k [] neigh0
    else neigh0
  let best_rank :=
    match neigh.findIdx? (fun n => decide (n.id ∈ goldSet) && !goldSet.isEmpty) with
    | some i => some (i + 1)
    | none => none
  let top1_sim :=
    match neigh.head? with
    | some n => similarityFromDistance n.distance
    | none => none
  let expect_in_manual := goldExpectInManual q
  let would_answer :=
    match top1_sim with
    | some s => decide (answer_threshold ≤ s)
    | none => false
  let fp := !expect_in_manual && would_answer
  let rows : List HierRow := (List.enumFrom 1 neigh).map (fun (e : ℕ × Neighbor) =>
    let nid := e.2.id
    let r := metaOf nid
    let snippet := strTrim (replaceNl (strTake r.text 220))
    { qid := strTrim q.id
      rank := e.1
      neighbor_id := nid
      similarity := similarityFromDistance e.2.distance
      page_number := r.page_number
      source_type := r.source_type
      snippet := snippet
      is_match := if goldSet ≠ [] then decide (nid ∈ goldSet) else false
      match_why :=
        if nid ∈ goldSet ∧ goldSet ≠ [] then some "parent_metadata_id"
        else none })
  ({ qid := strTrim q.id
     intent := strLower (strTrim q.intent)
     bucket := strLower (strTrim q.bucket)
     question := q.question
     expect_in_manual := expect_in_manual
     gold_best_rank := best_rank
     top1_similarity := top1_sim
     would_answer := would_answer
     false_positive_answer := fp }, rows)

/-- The body of the per-question loop of `_run_hier_eval`: embed the
question, query the vector index, then process the neighbors; an exception
from either external call propagates. -/
def hierQuestion (env : Env) (authority_level payer state program : Option String)
    (docAllow : List String) (fetch_k top_k : ℕ) (answer_threshold : ℚ)
    (q : Question) : Except Exc (HierPerQ × List HierRow) :=
  match env.embedQuery q.question with
  | .error e => .error e
  | .ok emb =>
    match env.findNeighbors emb fetch_k authority_level payer state program with
    | .error e => .error e
    | .ok neigh0 =>
      .ok (hierQuestionBody env docAllow top_k answer_threshold q neigh0)

/-- The per-question loop of `_run_hier_eval`: the first exception aborts
the whole evaluation (there is no per-question recovery in the source). -/
def hierLoop (env : Env) (authority_level payer state program : Option String)
    (docAllow : List String) (fetch_k top_k : ℕ) (answer_threshold : ℚ) :
    List Question → Except Exc (List HierPerQ × List HierRow)
  | [] => .ok ([], [])
  | q :: rest =>
    match hierQuestion env authority_level payer state program docAllow
      fetch_k top_k answer_threshold q with
    | .error e => .error e
    | .ok pr =>
      match hierLoop env authority_level payer state program docAllow
        fetch_k top_k answer_threshold rest with
      | .error e => .error e
      | .ok restOut => .ok (pr.1 :: restOut.1, pr.2 ++ restOut.2)

/-- Model of the studio's `_run_hier_eval`. -/
def runHierEval (env : Env) (authority_level : Option String)
    (document_ids : List String) (payer state program : Option String)
    (questions : List Question) (top_k : ℕ) (answer_threshold : ℚ) :
    Except Exc (List HierPerQ × List HierRow) :=
  if env.chat_db_url = "" then
    .error ⟨"RuntimeError",
      "CHAT_RAG_DATABASE_URL (or CHAT_DATABASE_URL) must be set to fetch metadata"⟩
  else if ¬ env.vertexCfgOk then
    .error ⟨"RuntimeError",
      "Missing Vertex config: set VERTEX_PROJECT, VERTEX_INDEX_ENDPOINT_ID, VERTEX_DEPLOYED_INDEX_ID"⟩
  else
    let docAllow := document_ids.filter (fun x => strTrim x ≠ "")
    let fetch_k := if docAllow ≠ [] then min (max (top_k * 8) 50) 200 else top_k
    hierLoop env authority_level payer state program docAllow fetch_k top_k
      answer_threshold questions

/-- Model of `_hit_flags`. -/
def hitFlags (best_rank : Option ℕ) : Option Bool × Option Bool × Option Bool × Option Bool :=
  match best_rank with
  | none => (none, none, none, none)
  | some r => (some (r ≤ 1), some (r ≤ 3), some (r ≤ 5), some (r ≤ 10))

/-- One persisted `retrieval_eval_run_retrieval_rows` row (the source's SQL
column `match` is the field `is_match` here, `match` being reserved in
Lean). -/
structure PersistedRow where
  run_id : String := ""
  suite_id : String := ""
  qid : String := ""
  method : String := ""
  rank : ℕ := 0
  item_id : String := ""
  parent_metadata_id : String := ""
  score : Option ℝ := none
  raw_score : Option ℚ := none
  is_match : Bool := false
  match_why : Option String := none
  page_number : Option ℤ := none
  source_type : Option String := none
  snippet : String := ""

/-- One persisted `retrieval_eval_run_question_metrics` row. -/
structure MetricRow where
  run_id : String := ""
  suite_id : String := ""
  qid : String := ""
  intent : String := ""
  bucket : String := ""
  question : String := ""
  expect_in_manual : Bool := false
  gold_parent_ids : Option (List String) := none
  bm25_gold_rank : Option ℕ := none
  bm25_hits : Option Bool × Option Bool × Option Bool × Option Bool := (none, none, none, none)
  bm25_max_norm_score : Option ℝ := none
  bm25_would_answer : Option Bool := none
  bm25_false_positive_answer : Option Bool := none
  hier_gold_rank : Option ℕ := none
  hier_hits : Option Bool × Option Bool × Option Bool × Option Bool := (none, none, none, none)
  hier_top1_similarity : Option ℚ := none
  hier_would_answer : Option Bool := none
  hier_false_positive_answer : Option Bool := none

/-- One `retrieval_eval_runs` row, as far as the run lifecycle touches it
(the stored aggregate summary is modelled only by its presence, no claim
concerning its contents). -/
structure RunRec where
  id : String := ""
  suite_id : String := ""
  status : String := ""
  summary : Option Unit := none
  error : Option String := none

/-- The persisted studio state touched by a run. -/
structure Db where
  runs : List RunRec := []
  retrieval_rows : List PersistedRow := []
  question_metrics : List MetricRow := []

instance : Inhabited Db := ⟨{}⟩

/-- Model of `_set_run_status`: a SQL `UPDATE ... WHERE id = run_id` that
only touches the optional columns it was given. -/
def setRunStatus (db : Db) (run_id : String) (status : String)
    (summary : Option Unit) (error : Option String) : Db :=
  { db with
    runs := db.runs.map (fun r =>
      if r.id = run_id then
        { r with
          status := status
          summary := if summary.isSome then summary else r.summary
          error := if error.isSome then error else r.error }
      else r) }

/-- Keys of a Python dict built from a keyed sequence: first-occurrence
order, duplicates collapsed. -/
def pyDictKeys : List String → List String
  | [] => []
  | k :: rest => k :: pyDictKeys (rest.filter (fun x => x ≠ k))
termination_by l => l.length
decreasing_by
  exact Nat.lt_succ_of_le (List.length_filter_le _ _)

/-- Value stored under a key by a Python dict comprehension over a keyed
sequence: the last entry with that key. -/
def pyDictGet (key : α → String) (l : List α) (k : String) : Option α :=
  l.reverse.find? (fun a => key a = k)

/-- Conversion of one in-memory BM25 row to its inserted SQL row. -/
noncomputable def persistBmRow (run_id suite_id : String) (r : BmRow) :
    PersistedRow :=
  { run_id := run_id
    suite_id := suite_id
    qid := r.qid
    method := "bm25"
    rank := r.rank
    item_id := r.parent_metadata_id
    parent_metadata_id := r.parent_metadata_id
    score := some r.norm_score
    raw_score := some r.raw_score
    is_match := r.is_match
    match_why := r.match_why
    page_number := r.page_number
    source_type := some "hierarchical"
    snippet := strTake r.sentence_text 240 }

/-- Conversion of one in-memory vector row to its inserted SQL row. -/
def persistHierRow (run_id suite_id : String) (r : HierRow) : PersistedRow :=
  { run_id := run_id
    suite_id := suite_id
    qid := r.qid
    method := "hier"
    rank := r.rank
    item_id := r.neighbor_id
    parent_metadata_id := r.neighbor_id
    score := r.similarity.map (fun (s : ℚ) => ((s : ℚ) : ℝ))
    raw_score := none
    is_match := r.is_match
    match_why := r.match_why
    page_number := r.page_number
    source_type := r.source_type
    snippet := strTake r.snippet 240 }

/-- The metric row inserted for one question id by `_insert_run_outputs`
(`b = bm_by.get(qid) or {}` and `h = h_by.get(qid) or {}` become the two
`Option` lookups). -/
noncomputable def metricRowFor (run_id suite_id : String)
    (bm25_per_q : List BmPerQ) (hier_per_q : List HierPerQ)
    (questions : List Question) (qid : String) : Option MetricRow :=
  (pyDictGet (fun q => q.id) questions qid).map (fun q =>
    let b := pyDictGet (fun r => r.qid) bm25_per_q qid
    let h := pyDictGet (fun r => r.qid) hier_per_q qid
    let parent_ids := q.gold.parent_metadata_ids.filter (fun x => strTrim x ≠ "")
    let b_rank := b.bind (fun r => r.gold_best_rank)
    let h_rank := h.bind (fun r => r.gold_best_rank)
    { run_id := run_id
      suite_id := suite_id
      qid := qid
      intent := q.intent
      bucket := q.bucket
      question := q.question
      expect_in_manual :=
        match b with
        | some r => r.expect_in_manual
        | none => ((h.map (fun r => r.expect_in_manual)).getD false)
      gold_parent_ids := if parent_ids ≠ [] then some parent_ids else none
      bm25_gold_rank := b_rank
      bm25_hits := hitFlags b_rank
      bm25_max_norm_score := b.bind (fun r => r.max_norm_score)
      bm25_would_answer := b.map (fun r => r.would_answer)
      bm25_false_positive_answer := b.map (fun r => r.false_positive_answer)
      hier_gold_rank := h_rank
      hier_hits := hitFlags h_rank
      hier_top1_similarity := h.bind (fun r => r.top1_similarity)
      hier_would_answer := h.map (fun r => r.would_answer)
      hier_false_positive_answer := h.map (fun r => r.false_positive_answer) })

/-- Model of `_insert_run_outputs`: delete the run's previous retrieval
rows and question metrics, then insert the fresh metric rows (one per
distinct question id, dict semantics) and the fresh BM25 and vector rows.
The returned aggregate summary dict is not modelled (no claim concerns its
contents). -/
noncomputable def insertRunOutputs (run_id suite_id : String)
    (questions : List Question) (bm25_per_q : List BmPerQ)
    (bm25_rows : List BmRow) (hier_per_q : List HierPerQ)
    (hier_rows : List HierRow) (db : Db) : Db :=
  { db with
    retrieval_rows :=
      (db.retrieval_rows.filter (fun r => r.run_id ≠ run_id))
        ++ bm25_rows.map (persistBmRow run_id suite_id)
        ++ hier_rows.map (persistHierRow run_id suite_id)
    question_metrics :=
      (db.question_metrics.filter (fun m => m.run_id ≠ run_id))
        ++ (pyDictKeys (questions.map (fun q => q.id))).filterMap
            (metricRowFor run_id suite_id bm25_per_q hier_per_q questions) }

/-- A suite's `suite_spec` JSON dict, with the keys `_run_eval_background`
reads. -/
structure SuiteSpec where
  document_authority_level : String := ""
  document_ids : List String := []
  document_id_list : List String := []
  top_k : Option ℕ := none
  limit_questions : Option ℤ := none
  bm25_answer_threshold : Option ℚ := none
  hier_answer_threshold : Option ℚ := none
  document_payer : String := ""
  document_state : String := ""
  document_program : String := ""

/-- Model of `str(... or "").strip() or None`. -/
def optStr (s : String) : Option String :=
  if strTrim s = "" then none else some (strTrim s)

/-- Model of `qs[:max(0, int(limit))]` applied when `limit_questions` is
set. -/
def appliedLimit (qs : List Question) : Option ℤ → List Question
  | some l => qs.take (max 0 l).toNat
  | none => qs

/-- Model of `_load_suite_questions` (suite row fetch plus question rows,
optionally truncated by `limit`). -/
def loadSuiteQuestions (env : Env) (limit : Option ℤ) :
    Except Exc (List Question) :=
  if ¬ env.suiteExists then .error ⟨"RuntimeError", "suite not found"⟩
  else .ok (appliedLimit env.questions limit)

/-- `authority = str(suite_spec.get("document_authority_level") or "").strip() or None`. -/
def authorityOf (spec : SuiteSpec) : Option String :=
  optStr spec.document_authority_level

/-- The cleaned document-id list of `_run_eval_background`. -/
def docIdsOf (spec : SuiteSpec) : List String :=
  (((if spec.document_ids ≠ [] then spec.document_ids
     else spec.document_id_list)).map strTrim).filter (fun d => d ≠ "")

/-- `top_k = int(suite_spec.get("top_k") or 10)`. -/
def topKOf (spec : SuiteSpec) : ℕ :=
  match spec.top_k with | none => 10 | some 0 => 10 | some n => n

/-- `bm25_thresh = float(suite_spec.get("bm25_answer_threshold") or 0.65)`. -/
def bm25ThreshOf (spec : SuiteSpec) : ℚ :=
  match spec.bm25_answer_threshold with
  | none => (0.65 : ℚ) | some v => if v = 0 then 0.65 else v

/-- `hier_thresh = float(suite_spec.get("hier_answer_threshold") or 0.88)`. -/
def hierThreshOf (spec : SuiteSpec) : ℚ :=
  match spec.hier_answer_threshold with
  | none => (0.88 : ℚ) | some v => if v = 0 then 0.88 else v

/-- The payer filter of the suite spec. -/
def payerOf (spec : SuiteSpec) : Option String := optStr spec.document_payer

/-- The state filter of the suite spec. -/
def stateOf (spec : SuiteSpec) : Option String := optStr spec.document_state

/-- The program filter of the suite spec. -/
def programOf (spec : SuiteSpec) : Option String := optStr spec.document_program

/-- The `try` body of `_run_eval_background`: parse the suite spec, load
the questions, run both evaluations, and persist the outputs. -/
noncomputable def runEvalCore (env : Env) (run_id suite_id : String)
    (spec : SuiteSpec) (db : Db) : Except Exc Db :=
  if authorityOf spec = none ∧ docIdsOf spec = [] then
    .error ⟨"RuntimeError",
      "suite_spec requires either document_authority_level or document_ids"⟩
  else
    match loadSuiteQuestions env spec.limit_questions with
    | .error e => .error e
    | .ok questions =>
      if questions = [] then .error ⟨"RuntimeError", "suite has no questions"⟩
      else
        match runBm25Eval env (authorityOf spec) (docIdsOf spec) questions
          (topKOf spec) (bm25ThreshOf spec) with
        | .error e => .error e
        | .ok bm =>
          match runHierEval env (authorityOf spec) (docIdsOf spec)
            (payerOf spec) (stateOf spec) (programOf spec) questions
            (topKOf spec) (hierThreshOf spec) with
          | .error e => .error e
          | .ok hier =>
            .ok (insertRunOutputs run_id suite_id questions bm.1 bm.2
              hier.1 hier.2 db)

/-- Model of `_run_eval_background`: mark the run `running`, execute, and
mark it `completed` (with a summary) or `failed` (with
`f"{type(e).__name__}: {e}"`). -/
noncomputable def runEvalBackground (env : Env) (run_id suite_id : String)
    (spec : SuiteSpec) (db : Db) : Db :=
  let db1 := setRunStatus db run_id "running" none none
  match runEvalCore env run_id suite_id spec db1 with
  | .ok db2 => setRunStatus db2 run_id "completed" (some ()) none
  | .error e => setRunStatus db1 run_id "failed" none (some (e.ty ++ ": " ++ e.msg))

/-- Status of a run in the persisted state. -/
def statusOf (db : Db) (run_id : String) : Option String :=
  (db.runs.find? (fun r => r.id = run_id)).map (fun r => r.status)

/-- Error string of a run in the persisted state. -/
def errorOf (db : Db) (run_id : String) : Option String :=
  (db.runs.find? (fun r => r.id = run_id)).bind (fun r => r.error)

/-- The persisted retrieval rows of one (run, question, method) triple. -/
def rowsFor (db : Db) (run_id qid method : String) : List PersistedRow :=
  db.retrieval_rows.filter
    (fun r => r.run_id = run_id ∧ r.qid = qid ∧ r.method = method)

/-! ### The `start_run` endpoint (`POST /api/suites/{suite_id}/runs`)

The suite's `suite_spec` is an arbitrary JSON object here, modelled as an
association list over an abstract value type `V`; `dict(spec)` followed by
`merged.update(override)` is `dictUpdate`. -/

/-- Lookup in an association-list dict. -/
def lookupA {V : Type} (d : List (String × V)) (k : String) : Option V :=
  (d.find? (fun p => p.1 = k)).map (fun p => p.2)

/-- Model of `merged = dict(spec); merged.update(override)`: existing keys
keep their position with overridden values, new override keys are
appended. -/
def dictUpdate {V : Type} (d ov : List (String × V)) : List (String × V) :=
  d.map (fun p => (p.1, (lookupA ov p.1).getD p.2))
    ++ ov.filter (fun p => (lookupA d p.1).isNone)

/-- One `retrieval_eval_suites` row as `start_run` touches it. -/
structure SuiteRow (V : Type) where
  suite_spec : List (String × V)
  updated_at : ℕ
deriving Repr, DecidableEq

/-- One `retrieval_eval_runs` row as `start_run` creates it. -/
structure ApiRun (V : Type) where
  id : String
  suite_id : String
  status : String
  params_suite_spec : List (String × V)
  created_at : ℕ
  updated_at : ℕ
deriving Repr, DecidableEq

/-- The QA-database state `start_run` reads and writes. -/
structure QaDb (V : Type) where
  suites : List (String × SuiteRow V)
  runs : List (ApiRun V)
deriving Repr, DecidableEq

/-- Model of `start_run`: read the suite's stored spec, merge the request's
`suite_spec_override` into it, insert a `queued` run whose params carry the
merged spec, and write the merged spec (with a fresh `updated_at`) back
onto the suite row; the background thread then executes with the merged
spec (its effects are modelled separately by `runEvalBackground`).  Errors
are the HTTP 404 on a missing suite. -/
def startRun {V : Type} (db : QaDb V) (suite_id : String)
    (body_override : Option (List (String × V))) (rid : String) (now : ℕ) :
    Except String (QaDb V × String) :=
  match lookupA db.suites suite_id with
  | none => .error "suite not found"
  | some suite =>
    let spec := suite.suite_spec
    let override := body_override.getD []
    let merged := dictUpdate spec override
    let run : ApiRun V :=
      { id := rid
        suite_id := suite_id
        status := "queued"
        params_suite_spec := merged
        created_at := now
        updated_at := now }
    let db' : QaDb V :=
      { suites := db.suites.map (fun p =>
          if p.1 = suite_id then
            (p.1, { suite_spec := merged, updated_at := now })
          else p)
        runs := db.runs ++ [run] }
    .ok (db', rid)

end Studio

/-- A question with its gold specification removed (used to state that a
value does not depend on gold). -/
def eraseGold (q : Question) : Question := { q with gold := {} }

/-- Environment used by the C9 witness: one neighbor whose metadata text
does contain the question's `answer_contains` needle. -/
def envC9 : Studio.Env :=
  { embedQuery := fun _ => .ok [1]
    findNeighbors := fun _ _ _ _ _ _ => .ok [{ id := "p1" }]
    fetchMetadataById := fun _ =>
      [("p1", { document_id := "d1", text := "call 800 555 0100" })] }

/-- Question used by the C9 witness: gold given only via `answer_contains`. -/
def qC9 : Question :=
  { id := "q1", question := "what phone", gold := { answer_contains := ["call"] } }

/-- Environment used by the C2 and C5 theorems' concrete instances: a
one-paragraph corpus, integer BM25 scores, and an embedding oracle that
times out on the first question. -/
def envC2 : Studio.Env :=
  { chat_db_url := "postgres://x"
    split := fun t => [t]
    fetchParagraphs := fun _ _ =>
      [{ id := "p1", document_id := "d1",
         text := "Call Member Services at 800 555 0100 for help today" }]
    getScores := fun _ _ => [3]
    rx := fun _ _ => .ok false
    vertexCfgOk := true
    embedQuery := fun t =>
      if t = "what phone" then .error ⟨"ReadTimeout", "timed out"⟩ else .ok [1]
    findNeighbors := fun _ _ _ _ _ _ => .ok [{ id := "p1", distance := some 0 }]
    fetchMetadataById := fun _ =>
      [("p1", { document_id := "d1", text := "Call", page_number := some 3,
                source_type := some "hierarchical" })]
    suiteExists := true
    questions := [{ id := "q1", question := "what phone", bucket := "in_manual" },
                  { id := "q2", question := "another", bucket := "in_manual" }] }

/-- Suite spec used by the concrete run instances. -/
def specC2 : Studio.SuiteSpec :=
  { document_authority_level := "manual", top_k := some 10,
    bm25_answer_threshold := some 1, hier_answer_threshold := some 1 }

/-- Persisted state holding one queued run row `r1`. -/
def dbC2 : Studio.Db :=
  { runs := [{ id := "r1", suite_id := "s1", status := "queued" }] }

/-- The same environment with a healthy embedding oracle (used by the C4
witness). -/
def envC4 : Studio.Env := { envC2 with embedQuery := fun _ => .ok [1] }

/-- Environment used by the C5 witness: the paragraph fetch returns no
rows, so the sentence corpus is empty. -/
def envC5 : Studio.Env := { envC2 with fetchParagraphs := fun _ _ => [] }

/-! ## Claim theorems -/

theorem insertBy_length (le : α → α → Bool) (a : α) (l : List α) :
    (insertBy le a l).length = l.length + 1 := by
  induction l with
  | nil => rfl
  | cons b t ih =>
    simp only [insertBy]
    split <;> simp [ih]

theorem pySorted_length (le : α → α → Bool) (l : List α) :
    (pySorted le l).length = l.length := by
  induction l with
  | nil => rfl
  | cons a t ih => simp [pySorted, insertBy_length, ih]

/-- C3: for every gold specification and candidate, (a) if the candidate's
parent evidence id is a member of the gold's non-empty parent-id set, the
gold matcher reports a match with the parent-id reason (the source's literal
reason string is `"parent_metadata_id"`, which the spec calls `parent_id`),
regardless of the regex oracle and of whether the text satisfies any
substring or regex rule — the parent rule is checked first and
short-circuits; (b) otherwise the substring rules are checked next, in list
order and case-insensitively, again regardless of the regex oracle; and
(c) a candidate satisfying no rule is reported as no match. -/
theorem gold_match_precedence (rx : RegexOracle) (g : Gold) (cand : SentenceDoc) :
    (g.parent_metadata_ids.filter (fun x => x ≠ "") ≠ [] ∧
        cand.parent_metadata_id ∈ g.parent_metadata_ids.filter (fun x => x ≠ "") →
      goldMatchCandidate rx g cand = ⟨true, some "parent_metadata_id"⟩)
    ∧
    (¬ (g.parent_metadata_ids.filter (fun x => x ≠ "") ≠ [] ∧
        cand.parent_metadata_id ∈ g.parent_metadata_ids.filter (fun x => x ≠ "")) →
      ∀ needle,
        (goldContainsNeedles g).find?
          (fun n => strContains (strLower cand.sentence_text) (strLower n))
          = some needle →
      goldMatchCandidate rx g cand
        = ⟨true, some ("contains:" ++ strTake needle 48)⟩)
    ∧
    (¬ (g.parent_metadata_ids.filter (fun x => x ≠ "") ≠ [] ∧
        cand.parent_metadata_id ∈ g.parent_metadata_ids.filter (fun x => x ≠ "")) →
      (goldContainsNeedles g).find?
          (fun n => strContains (strLower cand.sentence_text) (strLower n)) = none →
      (∀ p, g.answer_regex = some p → strTrim p ≠ "" →
        rx p cand.sentence_text ≠ .ok true) →
      goldMatchCandidate rx g cand = ⟨false, none⟩) := by
  refine ⟨?_, ?_, ?_⟩
  · intro h
    simp only [goldMatchCandidate]
    rw [if_pos h]
  · intro hnp needle hfind
    simp only [goldMatchCandidate]
    rw [if_neg hnp, hfind]
  · intro hnp hfind hrx
    simp only [goldMatchCandidate]
    rw [if_neg hnp, hfind]
    cases hr : g.answer_regex with
    | none => rfl
    | some p =>
      dsimp only
      by_cases ht : strTrim p ≠ ""
      · rw [if_pos ht]
        cases hrp : rx p cand.sentence_text with
        | error e => rfl
        | ok b =>
          cases b with
          | true => exact absurd hrp (hrx p hr ht)
          | false => rfl
      · rw [if_neg ht]

/-- Witness for C3 at concrete inputs: the parent rule wins over a matching
substring and an always-matching regex oracle; the substring rule wins over
an always-matching regex oracle; and with no rule satisfied the candidate
is no match. -/
theorem gold_match_precedence_witness :
    goldMatchCandidate (fun _ _ => .ok true)
        { parent_metadata_ids := ["p1"], answer_contains := ["hello"],
          answer_regex := some "h.*o" }
        { parent_metadata_id := "p1", sentence_text := "say HELLO there" }
      = ⟨true, some "parent_metadata_id"⟩
    ∧ goldMatchCandidate (fun _ _ => .ok true)
        { parent_metadata_ids := ["p2"], answer_contains := ["hello"],
          answer_regex := some "h.*o" }
        { parent_metadata_id := "p1", sentence_text := "say HELLO there" }
      = ⟨true, some ("contains:" ++ strTake "hello" 48)⟩
    ∧ goldMatchCandidate (fun _ _ => .ok false)
        { parent_metadata_ids := ["p2"], answer_contains := ["zzz"],
          answer_regex := some "h.*o" }
        { parent_metadata_id := "p1", sentence_text := "say HELLO there" }
      = ⟨false, none⟩ :=
  ⟨(gold_match_precedence _ _ _).1 (by decide),
   (gold_match_precedence _ _ _).2.1 (by decide) "hello" (by decide),
   (gold_match_precedence _ _ _).2.2 (by decide) (by decide)
     (fun _ _ _ h => by simp at h)⟩

/-- C8: the gold matcher is total on malformed regexes: if the pattern is
invalid (the regex oracle reports `re.error` on every text), matching any
candidate yields exactly what it would yield with no regex rule at all —
the regex rule contributes "no match" while the parent-id and substring
rules are still evaluated, and no exception escapes (`goldMatchCandidate`
is a total function). -/
theorem gold_match_malformed_regex_total (rx : RegexOracle) (g : Gold)
    (cand : SentenceDoc) (p : String)
    (hp : g.answer_regex = some p)
    (herr : ∀ t, rx p t = .error ()) :
    goldMatchCandidate rx g cand
      = goldMatchCandidate rx { g with answer_regex := none } cand := by
  simp only [goldMatchCandidate, goldContainsNeedles, hp]
  by_cases hpar : (g.parent_metadata_ids.filter (fun x => x ≠ "") ≠ [] ∧
      cand.parent_metadata_id ∈ g.parent_metadata_ids.filter (fun x => x ≠ ""))
  · rw [if_pos hpar, if_pos hpar]
  · rw [if_neg hpar, if_neg hpar]
    cases hfind : ((g.answer_contains ++ g.crux_contains).map strTrim).filter
        (fun s => s ≠ "") |>.find?
        (fun n => strContains (strLower cand.sentence_text) (strLower n)) with
    | some needle => rfl
    | none =>
      by_cases ht : strTrim p ≠ ""
      · rw [if_pos ht, herr cand.sentence_text]
      · rw [if_neg ht]

/-- Witness for C8: with an oracle that rejects the pattern on every text,
the candidate still matches through the substring rule, exactly as it
would with no regex rule. -/
theorem gold_match_malformed_regex_total_witness :
    goldMatchCandidate (fun _ _ => .error ())
        { answer_contains := ["needle"], answer_regex := some "[" }
        { sentence_text := "a needle in a haystack" }
      = goldMatchCandidate (fun _ _ => .error ())
        { answer_contains := ["needle"], answer_regex := (none : Option String) }
        { sentence_text := "a needle in a haystack" } :=
  gold_match_malformed_regex_total _ _ _ "[" rfl (fun _ => rfl)

/-- C9: in the vector (hier) retrieval path, gold matching uses only the
parent-id rule: for a question whose gold has an empty (trimmed) parent-id
set — e.g. a gold given only via `answer_contains`, `crux_contains` or
`answer_regex` — every vector retrieval row has `match = false` and a null
`match_why`, and the vector `gold_best_rank` is null, regardless of the
retrieved candidates and their text. -/
theorem hier_gold_match_parent_only
    (env : Studio.Env) (authority payer state program : Option String)
    (docAllow : List String) (fetch_k top_k : ℕ) (thr : ℚ) (q : Question)
    (p : Studio.HierPerQ) (rows : List Studio.HierRow)
    (hempty : q.gold.parent_metadata_ids.filter (fun x => strTrim x ≠ "") = [])
    (hok : Studio.hierQuestion env authority payer state program docAllow
      fetch_k top_k thr q = .ok (p, rows)) :
    p.gold_best_rank = none ∧
      ∀ r ∈ rows, r.is_match = false ∧ r.match_why = none := by
  rw [Studio.hierQuestion] at hok
  split at hok
  · exact absurd hok (by simp)
  · split at hok
    · exact absurd hok (by simp)
    · simp only [Except.ok.injEq] at hok
      have hbody := congrArg Prod.fst hok
      have hrows := congrArg Prod.snd hok
      simp only at hbody hrows
      subst hbody hrows
      rw [Studio.hierQuestionBody]
      simp only [hempty]
      constructor
      · simp only [List.isEmpty_nil, Bool.not_true, Bool.and_false]
        rw [List.findIdx?_eq_none_iff.mpr (fun x _ => rfl)]
      · intro r hr
        simp only [List.mem_map] at hr
        obtain ⟨e, _, he⟩ := hr
        subst he
        exact ⟨by simp, by simp⟩

/-- Witness for C9: a question gold-labelled only by `answer_contains` gets
a null vector `gold_best_rank` and an unmatched row even though the
retrieved neighbor's metadata text contains the needle. -/
theorem hier_gold_match_parent_only_witness :
    ((Studio.hierQuestion envC9 (some "manual") none none none [] 10 10 1
        qC9).toOption.getD default).1.gold_best_rank = none
    ∧ (((Studio.hierQuestion envC9 (some "manual") none none none [] 10 10 1
        qC9).toOption.getD default).2.headD default).is_match = false := by
  have h := hier_gold_match_parent_only envC9 (some "manual") none none none
    [] 10 10 1 qC9
    ((Studio.hierQuestion envC9 (some "manual") none none none [] 10 10 1
        qC9).toOption.getD default).1
    ((Studio.hierQuestion envC9 (some "manual") none none none [] 10 10 1
        qC9).toOption.getD default).2
    (by decide) rfl
  exact ⟨h.1, (h.2 _ (by decide)).1⟩

/-- The stable sigmoid of `bm25_eval.py` equals the textbook logistic
function over `ℝ`. -/
theorem BM25Eval.sigmoid_eq (x : ℝ) :
    BM25Eval.sigmoid x = 1 / (1 + Real.exp (-x)) := by
  rw [BM25Eval.sigmoid]
  split
  · rfl
  · rw [div_eq_div_iff (by positivity) (by positivity), Real.exp_neg]
    have h := Real.exp_ne_zero x
    field_simp
    ring

/-- The bm25_eval sigmoid is strictly increasing. -/
theorem BM25Eval.sigmoid_strictMono {a b : ℝ} (h : a < b) :
    BM25Eval.sigmoid a < BM25Eval.sigmoid b := by
  rw [BM25Eval.sigmoid_eq, BM25Eval.sigmoid_eq]
  have hb : (0 : ℝ) < 1 + Real.exp (-b) := by positivity
  have hab : 1 + Real.exp (-b) < 1 + Real.exp (-a) := by
    have := Real.exp_lt_exp.mpr (neg_lt_neg h)
    linarith
  exact one_div_lt_one_div_of_lt hb hab

/-- The studio sigmoid is strictly increasing in the scaled argument
`k * (x - x0)` (its base `2.718281828` exceeds `1`). -/
theorem Studio.sigmoid_lt_sigmoid {k x0 a b : ℝ}
    (h : k * (a - x0) < k * (b - x0)) :
    Studio.sigmoid a k x0 < Studio.sigmoid b k x0 := by
  rw [Studio.sigmoid, Studio.sigmoid]
  have hbase : (1 : ℝ) < 2.718281828 := by norm_num
  have hpow : (2.718281828 : ℝ) ^ (-(k * (b - x0)))
      < (2.718281828 : ℝ) ^ (-(k * (a - x0))) :=
    (Real.rpow_lt_rpow_left_iff hbase).mpr (neg_lt_neg h)
  have hpos : (0 : ℝ) < 1 + (2.718281828 : ℝ) ^ (-(k * (b - x0))) := by
    have := Real.rpow_pos_of_pos (show (0:ℝ) < 2.718281828 by norm_num)
      (-(k * (b - x0)))
    linarith
  exact one_div_lt_one_div_of_lt hpos (by linarith)

/-- C7 (amended: the calibration slope `k` must be positive — the claim's
unrestricted quantification over `(k, x0)` fails, see the counterexample):
for `k > 0`, both sources' sigmoids are strictly increasing in the raw
score, so within a single query the normalized-score ordering matches the
raw-score ordering. -/
theorem calibration_monotonicity :
    (∀ k x0 raw_a raw_b : ℝ, 0 < k → raw_b < raw_a →
      BM25Eval.sigmoid (k * (raw_b - x0)) < BM25Eval.sigmoid (k * (raw_a - x0)))
    ∧ (∀ k x0 raw_a raw_b : ℝ, 0 < k → raw_b < raw_a →
      Studio.sigmoid raw_b k x0 < Studio.sigmoid raw_a k x0)
    ∧ (∀ (k x0 : ℚ) (scores : List ℚ) (i j : ℕ), 0 < k →
        i < scores.length → j < scores.length →
        scores.getD j 0 < scores.getD i 0 →
        (Studio.sigmoid_normalize scores k x0).getD j 0
          < (Studio.sigmoid_normalize scores k x0).getD i 0) := by
  refine ⟨?_, ?_, ?_⟩
  · intro k x0 a b hk hba
    exact BM25Eval.sigmoid_strictMono
      (mul_lt_mul_of_pos_left (sub_lt_sub_right hba x0) hk)
  · intro k x0 a b hk hba
    exact Studio.sigmoid_lt_sigmoid
      (mul_lt_mul_of_pos_left (sub_lt_sub_right hba x0) hk)
  · intro k x0 scores i j hk hi hj hlt
    have hleni : i < (Studio.sigmoid_normalize scores k x0).length := by
      rw [Studio.sigmoid_normalize, List.length_map]; exact hi
    have hlenj : j < (Studio.sigmoid_normalize scores k x0).length := by
      rw [Studio.sigmoid_normalize, List.length_map]; exact hj
    rw [List.getD_eq_getElem _ _ hleni, List.getD_eq_getElem _ _ hlenj]
    simp only [Studio.sigmoid_normalize, List.getElem_map]
    apply Studio.sigmoid_lt_sigmoid
    have hq : ((scores.getD j 0 : ℚ) : ℝ) < ((scores.getD i 0 : ℚ) : ℝ) := by
      exact_mod_cast hlt
    rw [List.getD_eq_getElem _ _ hj, List.getD_eq_getElem _ _ hi] at hq
    have hkr : (0 : ℝ) < (k : ℝ) := by exact_mod_cast hk
    exact mul_lt_mul_of_pos_left (sub_lt_sub_right hq _) hkr

/-- Witness for C7: at `k = 1`, `x0 = 0`, raw scores `1 > 0`, both sigmoids
order strictly, and sigmoid normalization of `[5, 7]` orders index `1`
above index `0`. -/
theorem calibration_monotonicity_witness :
    (BM25Eval.sigmoid (1 * ((0:ℝ) - 0)) < BM25Eval.sigmoid (1 * ((1:ℝ) - 0)))
    ∧ (Studio.sigmoid (0:ℝ) 1 0 < Studio.sigmoid (1:ℝ) 1 0)
    ∧ ((Studio.sigmoid_normalize [5, 7] 1 0).getD 0 0
        < (Studio.sigmoid_normalize [5, 7] 1 0).getD 1 0) :=
  ⟨calibration_monotonicity.1 1 0 1 0 (by norm_num) (by norm_num),
   calibration_monotonicity.2.1 1 0 1 0 (by norm_num) (by norm_num),
   calibration_monotonicity.2.2 1 0 [5, 7] 1 0 (by norm_num)
     (by norm_num) (by norm_num) (by norm_num)⟩

/-- Counterexample for C7 as stated: the studio's own `global_max_raw`
calibration of the max-score list `[0, 10]` yields a negative slope
`k = 2.2 / (0 - 10)`, and with those fixed calibration parameters the
normalized ordering of the raw scores `1 > 0` strictly reverses instead of
being preserved. -/
theorem calibration_monotonicity_counterexample :
    ((Studio.sigmoid_params_from_max_raw [0, 10]).1 < 0)
    ∧ ¬ (Studio.sigmoid 1 ((Studio.sigmoid_params_from_max_raw [0, 10]).1 : ℝ)
          ((Studio.sigmoid_params_from_max_raw [0, 10]).2 : ℝ)
        > Studio.sigmoid 0 ((Studio.sigmoid_params_from_max_raw [0, 10]).1 : ℝ)
          ((Studio.sigmoid_params_from_max_raw [0, 10]).2 : ℝ)) := by
  have h1 : sortedScores [0, 10] = [0, 10] := by decide
  have hkx : Studio.sigmoid_params_from_max_raw [0, 10] = (-(11/50 : ℚ), 10) := by
    rw [Studio.sigmoid_params_from_max_raw, if_neg (by decide)]
    simp only [h1, List.length_cons, List.length_nil]
    norm_num [List.getD]
  rw [hkx]
  constructor
  · norm_num
  · intro hcon
    have hlt : Studio.sigmoid 1 ((-(11/50 : ℚ) : ℚ) : ℝ) ((10 : ℚ) : ℝ)
        < Studio.sigmoid 0 ((-(11/50 : ℚ) : ℚ) : ℝ) ((10 : ℚ) : ℝ) := by
      apply Studio.sigmoid_lt_sigmoid
      push_cast
      norm_num
    exact absurd hcon (not_lt.mpr (le_of_lt hlt))

/-- C1 (amended): `bm25_eval`'s `global_max_raw` calibration computes
`x0 = (q25+q75)/2` and `k = ln 3 / ((q75-q25)/2)` with nearest-rank
quartiles only for lists of at least 4 scores whose quartiles differ by at
least `1e-9`; it falls back to `k = 1, x0 = median` both in the degenerate
case and for shorter lists; and the studio variant computes
`x0 = p50, k = 2.2/(p90-p50)` from the median and 90th percentile
instead. -/
theorem global_max_raw_calibration :
    (∀ xs : List ℚ, 4 ≤ xs.length →
      ¬ |nearestRankQuantile (sortedScores xs) (3/4)
          - nearestRankQuantile (sortedScores xs) (1/4)| < 1/1000000000 →
      BM25Eval.sigmoid_params_from_max_raw xs
        = (Real.log 3 /
            ((((nearestRankQuantile (sortedScores xs) (3/4) : ℚ) : ℝ)
              - ((nearestRankQuantile (sortedScores xs) (1/4) : ℚ) : ℝ)) / 2),
           (((nearestRankQuantile (sortedScores xs) (1/4)
              + nearestRankQuantile (sortedScores xs) (3/4)) / 2 : ℚ) : ℝ)))
    ∧ (∀ xs : List ℚ, 4 ≤ xs.length →
      |nearestRankQuantile (sortedScores xs) (3/4)
          - nearestRankQuantile (sortedScores xs) (1/4)| < 1/1000000000 →
      BM25Eval.sigmoid_params_from_max_raw xs
        = (1, ((nearestRankQuantile (sortedScores xs) (1/2) : ℚ) : ℝ)))
    ∧ (∀ xs : List ℚ, xs ≠ [] → xs.length < 4 →
      BM25Eval.sigmoid_params_from_max_raw xs
        = (1, (((sortedScores xs).getD (xs.length / 2) 0 : ℚ) : ℝ)))
    ∧ (∀ xs : List ℚ, xs ≠ [] →
      (sortedScores xs).getD (9 * xs.length / 10 - 1) 0
        ≠ (sortedScores xs).getD (xs.length / 2) 0 →
      Studio.sigmoid_params_from_max_raw xs
        = ((2.2 : ℚ) / ((sortedScores xs).getD (9 * xs.length / 10 - 1) 0
            - (sortedScores xs).getD (xs.length / 2) 0),
           (sortedScores xs).getD (xs.length / 2) 0)) := by
  have hlen : ∀ xs : List ℚ, (sortedScores xs).length = xs.length :=
    fun xs => pySorted_length _ _
  refine ⟨?_, ?_, ?_, ?_⟩
  · intro xs h4 hnd
    have hne : xs ≠ [] := by
      intro h; subst h; simp at h4
    simp only [BM25Eval.sigmoid_params_from_max_raw]
    rw [if_neg hne, hlen xs, if_neg (by omega), if_neg hnd]
    simp only [Prod.mk.injEq]
    refine ⟨?_, trivial⟩
    rw [div_div_eq_mul_div, mul_comm]
  · intro xs h4 hdeg
    have hne : xs ≠ [] := by
      intro h; subst h; simp at h4
    simp only [BM25Eval.sigmoid_params_from_max_raw]
    rw [if_neg hne, hlen xs, if_neg (by omega), if_pos hdeg]
  · intro xs hne h4
    simp only [BM25Eval.sigmoid_params_from_max_raw]
    rw [if_neg hne, hlen xs, if_pos h4]
  · intro xs hne hpp
    simp only [Studio.sigmoid_params_from_max_raw]
    rw [if_neg hne, hlen xs, if_pos hpp]

/-- Witness for C1 (amended), at the four concrete score lists
`[0,1,2,10]` (main branch: quartiles `1` and `2`), `[5,5,5,5]` (degenerate
quartiles), `[0,10]` (short list) and `[0,10]` again for the studio
variant. -/
theorem global_max_raw_calibration_witness :
    BM25Eval.sigmoid_params_from_max_raw [0, 1, 2, 10]
      = (Real.log 3 / ((((2 : ℚ) : ℝ) - ((1 : ℚ) : ℝ)) / 2), (((3 : ℚ) / 2 : ℚ) : ℝ))
    ∧ BM25Eval.sigmoid_params_from_max_raw [5, 5, 5, 5] = (1, ((5 : ℚ) : ℝ))
    ∧ BM25Eval.sigmoid_params_from_max_raw [0, 10] = (1, ((10 : ℚ) : ℝ))
    ∧ Studio.sigmoid_params_from_max_raw [0, 10]
      = ((2.2 : ℚ) / ((0 : ℚ) - (10 : ℚ)), (10 : ℚ)) := by
  have hs1 : sortedScores [0, 1, 2, 10] = [0, 1, 2, 10] := by decide
  have hs2 : sortedScores [5, 5, 5, 5] = [5, 5, 5, 5] := by decide
  have hs3 : sortedScores [0, 10] = [0, 10] := by decide
  have e25 : nearestRankQuantile (sortedScores [0, 1, 2, 10]) (1/4) = 1 := by
    rw [hs1]
    norm_num [nearestRankQuantile, pyRound, List.getD]
  have e75 : nearestRankQuantile (sortedScores [0, 1, 2, 10]) (3/4) = 2 := by
    rw [hs1]
    norm_num [nearestRankQuantile, pyRound, List.getD] <;> decide
  have d25 : nearestRankQuantile (sortedScores [5, 5, 5, 5]) (1/4) = 5 := by
    rw [hs2]
    norm_num [nearestRankQuantile, pyRound, List.getD] <;> decide
  have d75 : nearestRankQuantile (sortedScores [5, 5, 5, 5]) (3/4) = 5 := by
    rw [hs2]
    norm_num [nearestRankQuantile, pyRound, List.getD] <;> decide
  have d50 : nearestRankQuantile (sortedScores [5, 5, 5, 5]) (1/2) = 5 := by
    rw [hs2]
    norm_num [nearestRankQuantile, pyRound, List.getD] <;> decide
  refine ⟨?_, ?_, ?_, ?_⟩
  · have h := global_max_raw_calibration.1 [0, 1, 2, 10] (by decide)
      (by rw [e25, e75]; norm_num)
    rw [e25, e75] at h
    convert h using 3
    norm_num
  · have h := global_max_raw_calibration.2.1 [5, 5, 5, 5] (by decide)
      (by rw [d25, d75]; norm_num)
    rw [d50] at h
    exact h
  · have h := global_max_raw_calibration.2.2.1 [0, 10] (by decide) (by decide)
    rw [hs3] at h
    simpa using h
  · have h := global_max_raw_calibration.2.2.2 [0, 10] (by decide)
      (by rw [hs3]; decide)
    rw [hs3] at h
    simpa using h

/-- Counterexample for C1 as stated: on the max-score list `[0, 10]` the
claimed formula gives `x0 = (q25+q75)/2 = 5` (under the code's own
nearest-rank percentile, and likewise under linear interpolation), but
`bm25_eval`'s function returns `x0 = 10` (its undocumented short-list
fallback) and the studio's function also returns `x0 = p50 = 10`. -/
theorem global_max_raw_counterexample :
    (BM25Eval.sigmoid_params_from_max_raw [0, 10]).2 = ((10 : ℚ) : ℝ)
    ∧ (Studio.sigmoid_params_from_max_raw [0, 10]).2 = 10
    ∧ ((nearestRankQuantile (sortedScores [0, 10]) (1/4)
        + nearestRankQuantile (sortedScores [0, 10]) (3/4)) / 2 : ℚ) = 5
    ∧ ((10 : ℚ) : ℝ) ≠ ((5 : ℚ) : ℝ) := by
  have hs3 : sortedScores [0, 10] = [0, 10] := by decide
  refine ⟨?_, ?_, ?_, ?_⟩
  · simp only [BM25Eval.sigmoid_params_from_max_raw]
    rw [if_neg (by decide), if_pos (by decide)]
    rw [hs3]
    norm_num [List.getD]
  · decide
  · rw [hs3]
    norm_num [nearestRankQuantile, pyRound, List.getD]
  · norm_num

/-- C6: for every question and method, `would_answer` is exactly the top
normalized confidence (BM25) or top-1 similarity (vector) reaching that
method's threshold; it does not depend on the gold specification (erasing
every gold leaves every `would_answer` unchanged); and
`false_positive_answer` is exactly `(not expect_in_manual) and
would_answer`. -/
theorem would_answer_definition :
    (∀ env a d qs tk thr,
      (Studio.runBm25Eval env a d qs tk thr).map
          (fun out => out.1.map (fun e => e.would_answer))
        = (Studio.runBm25Eval env a d (qs.map eraseGold) tk thr).map
          (fun out => out.1.map (fun e => e.would_answer)))
    ∧ (∀ env a d qs tk thr,
      (Studio.runBm25Eval env a d qs tk thr).map
          (fun out => out.1.map (fun e => e.would_answer))
        = (Studio.runBm25Eval env a d qs tk thr).map
          (fun out => out.1.map (fun e =>
            match e.max_norm_score with
            | some v => decide ((thr : ℝ) ≤ v)
            | none => false)))
    ∧ (∀ env a d qs tk thr,
      (Studio.runBm25Eval env a d qs tk thr).map
          (fun out => out.1.map (fun e => e.false_positive_answer))
        = (Studio.runBm25Eval env a d qs tk thr).map
          (fun out => out.1.map (fun e => !e.expect_in_manual && e.would_answer)))
    ∧ (∀ env al py st pr da fk tk thr q g',
      (Studio.hierQuestion env al py st pr da fk tk thr q).map
          (fun r => r.1.would_answer)
        = (Studio.hierQuestion env al py st pr da fk tk thr
            { q with gold := g' }).map (fun r => r.1.would_answer))
    ∧ (∀ env al py st pr da fk tk thr q,
      (Studio.hierQuestion env al py st pr da fk tk thr q).map
          (fun r => r.1.would_answer)
        = (Studio.hierQuestion env al py st pr da fk tk thr q).map
          (fun r =>
            match r.1.top1_similarity with
            | some s => decide (thr ≤ s)
            | none => false))
    ∧ (∀ env al py st pr da fk tk thr q,
      (Studio.hierQuestion env al py st pr da fk tk thr q).map
          (fun r => r.1.false_positive_answer)
        = (Studio.hierQuestion env al py st pr da fk tk thr q).map
          (fun r => !r.1.expect_in_manual && r.1.would_answer)) := by
  have hbm : ∀ env a d qs tk thr (f g : Studio.BmPerQ → Bool),
      (∀ env' tok corpus kx q,
        f (Studio.bm25PerQuestion env' tok corpus kx tk thr q)
          = g (Studio.bm25PerQuestion env' tok corpus kx tk thr q)) →
      (Studio.runBm25Eval env a d qs tk thr).map (fun out => out.1.map f)
        = (Studio.runBm25Eval env a d qs tk thr).map (fun out => out.1.map g) := by
    intro env a d qs tk thr f g hfg
    by_cases hc : env.chat_db_url = ""
    · simp only [Studio.runBm25Eval, if_pos hc, Except.map]
    · simp only [Studio.runBm25Eval, if_neg hc]
      cases hf : Studio.fetchScopedParagraphs env a d with
      | error e => simp only [Except.map]
      | ok paras =>
        by_cases hcor : Studio.buildSentenceCorpus env.split paras = []
        · simp only [if_pos hcor, Except.map]
        · simp only [if_neg hcor, Except.map, Except.ok.injEq]
          rw [List.map_map, List.map_map]
          exact List.map_congr_left (fun q _ => hfg _ _ _ _ q)
  refine ⟨?_, ?_, ?_, ?_, ?_, ?_⟩
  · intro env a d qs tk thr
    by_cases hc : env.chat_db_url = ""
    · simp only [Studio.runBm25Eval, if_pos hc, Except.map]
    · simp only [Studio.runBm25Eval, if_neg hc]
      cases hf : Studio.fetchScopedParagraphs env a d with
      | error e => simp only [Except.map]
      | ok paras =>
        by_cases hcor : Studio.buildSentenceCorpus env.split paras = []
        · simp only [if_pos hcor, Except.map]
        · simp only [if_neg hcor, Except.map, Except.ok.injEq]
          have hmax : Studio.maxRawScores env
              ((Studio.buildSentenceCorpus env.split paras).map
                (fun dd => Studio.tokenize dd.sentence_text)) (qs.map eraseGold)
              = Studio.maxRawScores env
              ((Studio.buildSentenceCorpus env.split paras).map
                (fun dd => Studio.tokenize dd.sentence_text)) qs := by
            rw [Studio.maxRawScores, Studio.maxRawScores, List.map_map]
            rfl
          rw [hmax, List.map_map, List.map_map, List.map_map]
          rfl
  · intro env a d qs tk thr
    exact hbm env a d qs tk thr _ _ (fun env' tok corpus kx q => rfl)
  · intro env a d qs tk thr
    exact hbm env a d qs tk thr _ _ (fun env' tok corpus kx q => rfl)
  · intro env al py st pr da fk tk thr q g'
    simp only [Studio.hierQuestion]
    cases h1 : env.embedQuery q.question with
    | error e => rfl
    | ok emb =>
      dsimp only
      cases h2 : env.findNeighbors emb fk al py st pr with
      | error e => simp only [h2, Except.map]
      | ok neigh0 =>
        simp only [h2, Except.map]
        rfl
  · intro env al py st pr da fk tk thr q
    simp only [Studio.hierQuestion]
    cases h1 : env.embedQuery q.question with
    | error e => rfl
    | ok emb =>
      dsimp only
      cases h2 : env.findNeighbors emb fk al py st pr with
      | error e => simp only [h2, Except.map]
      | ok neigh0 =>
        simp only [h2, Except.map]
        rfl
  · intro env al py st pr da fk tk thr q
    simp only [Studio.hierQuestion]
    cases h1 : env.embedQuery q.question with
    | error e => rfl
    | ok emb =>
      dsimp only
      cases h2 : env.findNeighbors emb fk al py st pr with
      | error e => simp only [h2, Except.map]
      | ok neigh0 =>
        simp only [h2, Except.map]
        rfl
/-- Updating a run's status updates exactly the row with that id. -/
theorem statusOf_setRunStatus (db : Studio.Db) (rid st : String)
    (su : Option Unit) (er : Option String)
    (h : (db.runs.find? (fun r => r.id = rid)).isSome = true) :
    Studio.statusOf (Studio.setRunStatus db rid st su er) rid = some st := by
  rw [Studio.statusOf, Studio.setRunStatus]
  revert h
  generalize db.runs = l
  intro h
  induction l with
  | nil => simp at h
  | cons r t ih =>
    by_cases hr : r.id = rid
    · simp [List.find?_cons, hr]
    · simp only [List.find?_cons] at h
      simp only [List.map_cons, List.find?_cons, if_neg hr]
      simp only [hr] at h ⊢
      simp only [decide_False, Bool.false_eq_true, if_false] at h ⊢
      exact ih h

/-- If the hier loop succeeded, every question in the list was embedded and
queried successfully. -/
theorem hierLoop_ok_mem (env : Studio.Env)
    (al py st pr : Option String) (da : List String) (fk tk : ℕ) (thr : ℚ)
    (qs : List Question) (out : List Studio.HierPerQ × List Studio.HierRow)
    (q : Question)
    (hok : Studio.hierLoop env al py st pr da fk tk thr qs = .ok out)
    (hmem : q ∈ qs) :
    ∃ r, Studio.hierQuestion env al py st pr da fk tk thr q = .ok r := by
  induction qs generalizing out with
  | nil => cases hmem
  | cons a t ih =>
    rw [Studio.hierLoop] at hok
    cases hq : Studio.hierQuestion env al py st pr da fk tk thr a with
    | error e => rw [hq] at hok; exact absurd hok (by simp)
    | ok pr' =>
      rw [hq] at hok
      cases hrest : Studio.hierLoop env al py st pr da fk tk thr t with
      | error e => rw [hrest] at hok; exact absurd hok (by simp)
      | ok restOut =>
        cases hmem with
        | head => exact ⟨pr', hq⟩
        | tail _ hmem' => exact ih restOut hrest hmem'

/-- C2 (amended): per-question error recovery holds for malformed gold
regexes but not for embedding/vector-query failures.  (a) The BM25
evaluation's success and its per-question output are independent of the
regex oracle: a malformed `answer_regex` is absorbed per candidate (see
`gold_match_malformed_regex_total`), the question still yields its summary
row and the run can complete.  (b) An embedding failure on any loaded
question makes the whole run terminate with status `failed`: there is no
per-question try/except in `_run_hier_eval`, so no error marker is written
and the remaining questions' results are discarded. -/
theorem per_question_error_handling :
    (∀ env a d qs tk thr (rx' : RegexOracle),
      (Studio.runBm25Eval { env with rx := rx' } a d qs tk thr).map
          (fun out => out.1.map (fun e => e.qid))
        = (Studio.runBm25Eval env a d qs tk thr).map
          (fun out => out.1.map (fun e => e.qid))
      ∧ (Studio.runBm25Eval { env with rx := rx' } a d qs tk thr).isOk
        = (Studio.runBm25Eval env a d qs tk thr).isOk)
    ∧ (∀ env rid sid spec db q e,
      q ∈ Studio.appliedLimit env.questions spec.limit_questions →
      env.embedQuery q.question = .error e →
      (db.runs.find? (fun r => r.id = rid)).isSome = true →
      Studio.statusOf (Studio.runEvalBackground env rid sid spec db) rid
        = some "failed") := by
  constructor
  · intro env a d qs tk thr rx'
    have h1 : ({ env with rx := rx' } : Studio.Env).chat_db_url
        = env.chat_db_url := rfl
    have h2 : Studio.fetchScopedParagraphs { env with rx := rx' } a d
        = Studio.fetchScopedParagraphs env a d := rfl
    have h3 : ({ env with rx := rx' } : Studio.Env).split = env.split := rfl
    have h4 : Studio.maxRawScores { env with rx := rx' }
        = Studio.maxRawScores env := rfl
    simp only [Studio.runBm25Eval, h1, h2, h3, h4]
    by_cases hc : env.chat_db_url = ""
    · simp [hc]
    · simp only [if_neg hc]
      cases hf : Studio.fetchScopedParagraphs env a d with
      | error e => simp [Except.map, Except.isOk, Except.toBool]
      | ok paras =>
        by_cases hcor : Studio.buildSentenceCorpus env.split paras = []
        · simp [hcor, Except.map, Except.isOk, Except.toBool]
        · simp only [if_neg hcor, Except.map, Except.isOk, Except.toBool,
            Except.ok.injEq]
          refine ⟨?_, trivial⟩
          rw [List.map_map, List.map_map]
          rfl
  · intro env rid sid spec db q e hmem herr hrun
    rw [Studio.runEvalBackground]
    cases hcore : Studio.runEvalCore env rid sid spec
        (Studio.setRunStatus db rid "running" none none) with
    | error ex =>
      apply statusOf_setRunStatus
      -- the `running` update preserves the presence of the run row
      rw [Studio.setRunStatus]
      revert hrun
      generalize db.runs = l
      intro hrun
      induction l with
      | nil => simp at hrun
      | cons r t ih =>
        by_cases hr : r.id = rid
        · simp [List.find?_cons, hr]
        · simp only [List.find?_cons] at hrun
          simp only [List.map_cons, List.find?_cons, if_neg hr]
          simp only [hr] at hrun ⊢
          simp only [decide_False, Bool.false_eq_true, if_false] at hrun ⊢
          exact ih hrun
    | ok db2 =>
      exfalso
      rw [Studio.runEvalCore, Studio.loadSuiteQuestions] at hcore
      split at hcore
      · exact absurd hcore (by simp)
      · split at hcore
        · exact absurd hcore (by simp)
        · rename_i questionsx hif
          split at hcore
          · exact absurd hcore (by simp)
          · split at hif
            · exact absurd hif (by simp)
            · injection hif with hqx
              subst hqx
              cases hbm : Studio.runBm25Eval env (Studio.authorityOf spec)
                  (Studio.docIdsOf spec)
                  (Studio.appliedLimit env.questions spec.limit_questions)
                  (Studio.topKOf spec) (Studio.bm25ThreshOf spec) with
              | error e3 => rw [hbm] at hcore; exact absurd hcore (by simp)
              | ok bm =>
                rw [hbm] at hcore
                cases hh : Studio.runHierEval env (Studio.authorityOf spec)
                    (Studio.docIdsOf spec) (Studio.payerOf spec)
                    (Studio.stateOf spec) (Studio.programOf spec)
                    (Studio.appliedLimit env.questions spec.limit_questions)
                    (Studio.topKOf spec) (Studio.hierThreshOf spec) with
                | error e4 => rw [hh] at hcore; exact absurd hcore (by simp)
                | ok hier =>
                  rw [Studio.runHierEval] at hh
                  split at hh
                  · exact absurd hh (by simp)
                  · split at hh
                    · exact absurd hh (by simp)
                    · obtain ⟨r, hr⟩ := hierLoop_ok_mem _ _ _ _ _ _ _ _ _ _ _ q hh
                        hmem
                      rw [Studio.hierQuestion, herr] at hr
                      exact absurd hr (by simp)

/-- Witness for C2 (amended): in the concrete environment whose embedding
oracle times out on question `q1`, the run ends `failed`; and the BM25
output shape at that environment is unchanged under an always-failing
regex oracle. -/
theorem per_question_error_handling_witness :
    Studio.statusOf (Studio.runEvalBackground envC2 "r1" "s1" specC2 dbC2) "r1"
      = some "failed"
    ∧ (Studio.runBm25Eval { envC2 with rx := fun _ _ => .error () }
        (some "manual") [] envC2.questions 10 1).isOk
      = (Studio.runBm25Eval envC2 (some "manual") [] envC2.questions 10 1).isOk :=
  ⟨per_question_error_handling.2 envC2 "r1" "s1" specC2 dbC2
      { id := "q1", question := "what phone", bucket := "in_manual" }
      ⟨"ReadTimeout", "timed out"⟩ (by decide) rfl rfl,
   (per_question_error_handling.1 envC2 (some "manual") [] envC2.questions 10 1
      (fun _ _ => .error ())).2⟩

/-- Setting a run's error writes it onto the run's row. -/
theorem errorOf_setRunStatus (db : Studio.Db) (rid st : String)
    (su : Option Unit) (msg : String)
    (h : (db.runs.find? (fun r => r.id = rid)).isSome = true) :
    Studio.errorOf (Studio.setRunStatus db rid st su (some msg)) rid
      = some msg := by
  rw [Studio.errorOf, Studio.setRunStatus]
  revert h
  generalize db.runs = l
  intro h
  induction l with
  | nil => simp at h
  | cons r t ih =>
    by_cases hr : r.id = rid
    · simp [List.find?_cons, hr]
    · simp only [List.find?_cons] at h
      simp only [List.map_cons, List.find?_cons, if_neg hr]
      simp only [hr] at h ⊢
      simp only [decide_False, Bool.false_eq_true, if_false] at h ⊢
      exact ih h

/-- Updating a run's status preserves the presence of its row. -/
theorem find_isSome_setRunStatus (db : Studio.Db) (rid st : String)
    (su : Option Unit) (er : Option String)
    (h : (db.runs.find? (fun r => r.id = rid)).isSome = true) :
    (((Studio.setRunStatus db rid st su er).runs).find?
      (fun r => r.id = rid)).isSome = true := by
  rw [Studio.setRunStatus]
  revert h
  generalize db.runs = l
  intro h
  induction l with
  | nil => simp at h
  | cons r t ih =>
    by_cases hr : r.id = rid
    · simp [List.find?_cons, hr]
    · simp only [List.find?_cons] at h
      simp only [List.map_cons, List.find?_cons, if_neg hr]
      simp only [hr] at h ⊢
      simp only [decide_False, Bool.false_eq_true, if_false] at h ⊢
      exact ih h

/-- C5: a run whose document scope yields an empty sentence corpus fails as
a whole: the run terminates with status `failed` and the descriptive
message `No corpus sentences found for authority_level`, and no per-question
results are persisted (retrieval rows and question metrics are untouched). -/
theorem empty_corpus_fails_run
    (env : Studio.Env) (rid sid : String) (spec : Studio.SuiteSpec)
    (db : Studio.Db) (paras : List Studio.ParagraphRow)
    (hscope : ¬ (Studio.authorityOf spec = none ∧ Studio.docIdsOf spec = []))
    (hsuite : env.suiteExists = true)
    (hq : Studio.appliedLimit env.questions spec.limit_questions ≠ [])
    (hurl : env.chat_db_url ≠ "")
    (hparas : Studio.fetchScopedParagraphs env (Studio.authorityOf spec)
      (Studio.docIdsOf spec) = .ok paras)
    (hcorpus : Studio.buildSentenceCorpus env.split paras = [])
    (hrun : (db.runs.find? (fun r => r.id = rid)).isSome = true) :
    Studio.statusOf (Studio.runEvalBackground env rid sid spec db) rid
      = some "failed"
    ∧ Studio.errorOf (Studio.runEvalBackground env rid sid spec db) rid
      = some "RuntimeError: No corpus sentences found for authority_level"
    ∧ (Studio.runEvalBackground env rid sid spec db).retrieval_rows
      = db.retrieval_rows
    ∧ (Studio.runEvalBackground env rid sid spec db).question_metrics
      = db.question_metrics := by
  have hbm : Studio.runBm25Eval env (Studio.authorityOf spec)
      (Studio.docIdsOf spec)
      (Studio.appliedLimit env.questions spec.limit_questions)
      (Studio.topKOf spec) (Studio.bm25ThreshOf spec)
      = .error ⟨"RuntimeError",
          "No corpus sentences found for authority_level"⟩ := by
    rw [Studio.runBm25Eval, if_neg hurl, hparas]
    dsimp only
    rw [if_pos hcorpus]
  have hcore : Studio.runEvalCore env rid sid spec
      (Studio.setRunStatus db rid "running" none none)
      = .error ⟨"RuntimeError",
          "No corpus sentences found for authority_level"⟩ := by
    rw [Studio.runEvalCore, Studio.loadSuiteQuestions, if_neg hscope]
    rw [if_neg (by simp [hsuite])]
    dsimp only
    rw [if_neg hq, hbm]
  rw [Studio.runEvalBackground, hcore]
  refine ⟨?_, ?_, rfl, rfl⟩
  · exact statusOf_setRunStatus _ _ _ _ _
      (find_isSome_setRunStatus _ _ _ _ _ hrun)
  · exact errorOf_setRunStatus _ _ _ _ _
      (find_isSome_setRunStatus _ _ _ _ _ hrun)

/-- Witness for C5: with an empty fetched corpus the concrete run fails
with the descriptive message and leaves no rows. -/
theorem empty_corpus_fails_run_witness :
    Studio.statusOf (Studio.runEvalBackground envC5 "r1" "s1" specC2 dbC2) "r1"
      = some "failed"
    ∧ Studio.errorOf (Studio.runEvalBackground envC5 "r1" "s1" specC2 dbC2) "r1"
      = some "RuntimeError: No corpus sentences found for authority_level"
    ∧ (Studio.runEvalBackground envC5 "r1" "s1" specC2 dbC2).retrieval_rows
      = dbC2.retrieval_rows
    ∧ (Studio.runEvalBackground envC5 "r1" "s1" specC2 dbC2).question_metrics
      = dbC2.question_metrics :=
  empty_corpus_fails_run envC5 "r1" "s1" specC2 dbC2 []
    (by decide) rfl (by decide) (by decide) rfl rfl rfl

/-- Filtering a flat-map of per-key blocks by one key: if each block's rows
carry their block's key and have ranks `1..len`, and keys are distinct,
then the filtered rows' ranks are exactly `1..len` again. -/
theorem filter_flatMap_blocks {α β : Type} (key : α → String) (kf : β → String)
    (rk : β → ℕ) (f : α → List β) (qs : List α) (k0 : String)
    (hkey : ∀ a, ∀ r ∈ f a, kf r = key a)
    (hrank : ∀ a, (f a).map rk = List.range' 1 (f a).length)
    (hnodup : (qs.map key).Nodup) :
    ((qs.flatMap f).filter (fun r => kf r = k0)).map rk
      = List.range' 1 ((qs.flatMap f).filter (fun r => kf r = k0)).length := by
  induction qs with
  | nil => simp
  | cons a t ih =>
    rw [List.map_cons, List.nodup_cons] at hnodup
    rw [List.flatMap_cons, List.filter_append]
    by_cases hk : key a = k0
    · have hfa : (f a).filter (fun r => decide (kf r = k0)) = f a :=
        List.filter_eq_self.mpr (fun r hr => by simp [hkey a r hr, hk])
      have hrest : (t.flatMap f).filter (fun r => decide (kf r = k0)) = [] := by
        rw [List.filter_eq_nil_iff]
        intro r hr
        obtain ⟨b, hb, hrb⟩ := List.mem_flatMap.mp hr
        have : kf r = key b := hkey b r hrb
        have hbne : key b ≠ k0 := by
          intro hcon
          exact hnodup.1 (List.mem_map.mpr ⟨b, hb, by rw [hcon, hk]⟩)
        simp [this, hbne]
      rw [hfa, hrest, List.append_nil]
      exact hrank a
    · have hblock : (f a).filter (fun r => decide (kf r = k0)) = [] := by
        rw [List.filter_eq_nil_iff]
        intro r hr
        simp [hkey a r hr, hk]
      rw [hblock, List.nil_append]
      exact ih hnodup.2

/-- The BM25 rows of one question have ranks `1..N`. -/
theorem bm25QuestionRows_ranks (env : Studio.Env) (tok : List (List String))
    (corpus : List SentenceDoc) (kx : ℚ × ℚ) (tk : ℕ) (q : Question) :
    (Studio.bm25QuestionRows env tok corpus kx tk q).map (fun r => r.rank)
      = List.range' 1 (Studio.bm25QuestionRows env tok corpus kx tk q).length := by
  rw [Studio.bm25QuestionRows]
  dsimp only
  rw [List.map_map, List.length_map]
  have h1 : ∀ l : List (SentenceDoc × ℚ × ℝ),
      ((List.enumFrom 1 l).map Prod.fst) = List.range' 1 l.length :=
    fun l => List.enumFrom_map_fst 1 l
  calc (List.enumFrom 1 _).map _
      = (List.enumFrom 1 _).map Prod.fst := List.map_congr_left (fun e _ => rfl)
    _ = List.range' 1 _ := by rw [List.enumFrom_map_fst, List.enumFrom_length]

/-- The vector rows of one question have ranks `1..N` (from the neighbor
enumeration). -/
theorem hierQuestionBody_rows_ranks (env : Studio.Env) (da : List String)
    (tk : ℕ) (thr : ℚ) (q : Question) (neigh0 : List Studio.Neighbor) :
    (Studio.hierQuestionBody env da tk thr q neigh0).2.map (fun r => r.rank)
      = List.range' 1 (Studio.hierQuestionBody env da tk thr q neigh0).2.length := by
  rw [Studio.hierQuestionBody]
  dsimp only
  rw [List.map_map, List.length_map]
  calc (List.enumFrom 1 _).map _
      = (List.enumFrom 1 _).map Prod.fst := List.map_congr_left (fun e _ => rfl)
    _ = List.range' 1 _ := by rw [List.enumFrom_map_fst, List.enumFrom_length]

/-- The BM25 rows of one question all carry that question's (stripped) id. -/
theorem bm25QuestionRows_qid (env : Studio.Env) (tok : List (List String))
    (corpus : List SentenceDoc) (kx : ℚ × ℚ) (tk : ℕ) (q : Question) :
    ∀ r ∈ Studio.bm25QuestionRows env tok corpus kx tk q,
      r.qid = strTrim q.id := by
  intro r hr
  rw [Studio.bm25QuestionRows] at hr
  obtain ⟨e, _, he⟩ := List.mem_map.mp hr
  subst he
  rfl

/-- The vector rows of one question all carry that question's (stripped)
id. -/
theorem hierQuestionBody_rows_qid (env : Studio.Env) (da : List String)
    (tk : ℕ) (thr : ℚ) (q : Question) (neigh0 : List Studio.Neighbor) :
    ∀ r ∈ (Studio.hierQuestionBody env da tk thr q neigh0).2,
      r.qid = strTrim q.id := by
  intro r hr
  rw [Studio.hierQuestionBody] at hr
  obtain ⟨e, _, he⟩ := List.mem_map.mp hr
  subst he
  rfl

/-- Successful `_run_bm25_eval` output: the row list is the concatenation
of each question's row block, in question order. -/
theorem runBm25Eval_ok_rows (env : Studio.Env) (a : Option String)
    (d : List String) (qs : List Question) (tk : ℕ) (thr : ℚ)
    (bm : List Studio.BmPerQ × List Studio.BmRow)
    (h : Studio.runBm25Eval env a d qs tk thr = .ok bm) :
    ∃ tok corpus kx,
      bm.2 = qs.flatMap (Studio.bm25QuestionRows env tok corpus kx tk) := by
  rw [Studio.runBm25Eval] at h
  split at h
  · exact absurd h (by simp)
  · split at h
    · exact absurd h (by simp)
    · dsimp only at h
      split at h
      · exact absurd h (by simp)
      · injection h with h'
        exact ⟨_, _, _, congrArg Prod.snd h'.symm⟩

/-- Successful hier loop output: the row list is the concatenation of each
question's row block, in question order. -/
theorem hierLoop_ok_rows (env : Studio.Env)
    (al py st pr : Option String) (da : List String) (fk tk : ℕ) (thr : ℚ)
    (qs : List Question) (out : List Studio.HierPerQ × List Studio.HierRow)
    (h : Studio.hierLoop env al py st pr da fk tk thr qs = .ok out) :
    out.2 = qs.flatMap (fun q =>
      match Studio.hierQuestion env al py st pr da fk tk thr q with
      | .ok pr' => pr'.2
      | .error _ => []) := by
  induction qs generalizing out with
  | nil =>
    rw [Studio.hierLoop] at h
    injection h with h'
    rw [← h']
    rfl
  | cons a t ih =>
    rw [Studio.hierLoop] at h
    cases hq : Studio.hierQuestion env al py st pr da fk tk thr a with
    | error e => rw [hq] at h; exact absurd h (by simp)
    | ok pr' =>
      rw [hq] at h
      cases hr : Studio.hierLoop env al py st pr da fk tk thr t with
      | error e => rw [hr] at h; exact absurd h (by simp)
      | ok restOut =>
        rw [hr] at h
        injection h with h'
        rw [← h', List.flatMap_cons, hq, ← ih restOut hr]

/-- Successful `_run_hier_eval` reduces to a successful hier loop. -/
theorem runHierEval_ok (env : Studio.Env) (a : Option String)
    (d : List String) (py st pr : Option String) (qs : List Question)
    (tk : ℕ) (thr : ℚ) (out : List Studio.HierPerQ × List Studio.HierRow)
    (h : Studio.runHierEval env a d py st pr qs tk thr = .ok out) :
    ∃ da fk, Studio.hierLoop env a py st pr da fk tk thr qs = .ok out := by
  rw [Studio.runHierEval] at h
  split at h
  · exact absurd h (by simp)
  · split at h
    · exact absurd h (by simp)
    · exact ⟨_, _, h⟩

/-- A metric row is always inserted under the run id it was built for. -/
theorem metricRowFor_run_id (rid sid : String)
    (bmq : List Studio.BmPerQ) (hq : List Studio.HierPerQ)
    (qs : List Question) (k : String) (m : Studio.MetricRow)
    (h : Studio.metricRowFor rid sid bmq hq qs k = some m) :
    m.run_id = rid := by
  rw [Studio.metricRowFor] at h
  cases hg : Studio.pyDictGet (fun q => q.id) qs k with
  | none => rw [hg] at h; exact absurd h (by simp)
  | some q0 =>
    rw [hg] at h
    injection h with h'
    rw [← h']

/-- C4: after `_insert_run_outputs` persists a successful run's outputs,
the retrieval rows of every (run, question, method) triple have ranks
exactly `1..N`, whatever rows the store held for that run id before
(re-execution included), because all prior rows and metrics of the run id
are deleted before the new ones — which all carry the run id — are
appended. -/
theorem rank_contiguity
    (env : Studio.Env) (a : Option String) (d : List String)
    (py st pr : Option String) (qs : List Question) (tk : ℕ)
    (thr1 thr2 : ℚ) (rid sid : String) (db : Studio.Db)
    (bm : List Studio.BmPerQ × List Studio.BmRow)
    (hier : List Studio.HierPerQ × List Studio.HierRow)
    (hnodup : (qs.map (fun q => strTrim q.id)).Nodup)
    (hbm : Studio.runBm25Eval env a d qs tk thr1 = .ok bm)
    (hh : Studio.runHierEval env a d py st pr qs tk thr2 = .ok hier) :
    (∀ qid,
      (Studio.rowsFor
        (Studio.insertRunOutputs rid sid qs bm.1 bm.2 hier.1 hier.2 db)
        rid qid "bm25").map (fun r => r.rank)
      = List.range' 1 (Studio.rowsFor
          (Studio.insertRunOutputs rid sid qs bm.1 bm.2 hier.1 hier.2 db)
          rid qid "bm25").length)
    ∧ (∀ qid,
      (Studio.rowsFor
        (Studio.insertRunOutputs rid sid qs bm.1 bm.2 hier.1 hier.2 db)
        rid qid "hier").map (fun r => r.rank)
      = List.range' 1 (Studio.rowsFor
          (Studio.insertRunOutputs rid sid qs bm.1 bm.2 hier.1 hier.2 db)
          rid qid "hier").length)
    ∧ (∃ ins,
      (Studio.insertRunOutputs rid sid qs bm.1 bm.2 hier.1 hier.2
          db).retrieval_rows
        = db.retrieval_rows.filter (fun r => r.run_id ≠ rid) ++ ins
      ∧ ∀ r ∈ ins, r.run_id = rid)
    ∧ (∃ insm,
      (Studio.insertRunOutputs rid sid qs bm.1 bm.2 hier.1 hier.2
          db).question_metrics
        = db.question_metrics.filter (fun m => m.run_id ≠ rid) ++ insm
      ∧ ∀ m ∈ insm, m.run_id = rid) := by
  obtain ⟨tok, corpus, kx, hbm2⟩ := runBm25Eval_ok_rows _ _ _ _ _ _ _ hbm
  obtain ⟨da, fk, hloop⟩ := runHierEval_ok _ _ _ _ _ _ _ _ _ _ hh
  have hh2 := hierLoop_ok_rows _ _ _ _ _ _ _ _ _ _ _ hloop
  have hrows : (Studio.insertRunOutputs rid sid qs bm.1 bm.2 hier.1 hier.2
      db).retrieval_rows
      = db.retrieval_rows.filter (fun r => r.run_id ≠ rid)
        ++ (bm.2.map (Studio.persistBmRow rid sid)
            ++ hier.2.map (Studio.persistHierRow rid sid)) := by
    rw [Studio.insertRunOutputs, List.append_assoc]
  refine ⟨?_, ?_, ?_, ?_⟩
  · intro qid
    rw [Studio.rowsFor, hrows, List.filter_append, List.filter_append]
    have hold : ((db.retrieval_rows.filter (fun r => r.run_id ≠ rid)).filter
        (fun r => r.run_id = rid ∧ r.qid = qid ∧ r.method = "bm25")) = [] := by
      rw [List.filter_eq_nil_iff]
      intro r hr
      have := (List.mem_filter.mp hr).2
      simp only [decide_eq_true_eq] at this
      simp [this]
    have hhier : (hier.2.map (Studio.persistHierRow rid sid)).filter (fun r =>
        r.run_id = rid ∧ r.qid = qid ∧ r.method = "bm25") = [] := by
      rw [List.filter_eq_nil_iff]
      intro r hr
      obtain ⟨r0, _, hr0⟩ := List.mem_map.mp hr
      subst hr0
      simp [Studio.persistHierRow]
    rw [hold, hhier, List.nil_append, List.append_nil]
    have hpred : (bm.2.map (Studio.persistBmRow rid sid)).filter (fun r =>
        r.run_id = rid ∧ r.qid = qid ∧ r.method = "bm25")
        = (bm.2.map (Studio.persistBmRow rid sid)).filter
            (fun r => r.qid = qid) := by
      apply List.filter_congr
      intro r hr
      obtain ⟨r0, _, hr0⟩ := List.mem_map.mp hr
      subst hr0
      simp [Studio.persistBmRow]
    rw [hpred, hbm2, List.map_flatMap]
    exact filter_flatMap_blocks (fun q => strTrim q.id) (fun r => r.qid)
      (fun r => r.rank)
      (fun q => (Studio.bm25QuestionRows env tok corpus kx tk q).map
        (Studio.persistBmRow rid sid)) qs qid
      (by
        intro aq r hr
        obtain ⟨r0, hr0m, hr0⟩ := List.mem_map.mp hr
        subst hr0
        exact bm25QuestionRows_qid env tok corpus kx tk aq r0 hr0m)
      (by
        intro aq
        rw [List.map_map, List.length_map]
        calc ((Studio.bm25QuestionRows env tok corpus kx tk aq).map _)
            = (Studio.bm25QuestionRows env tok corpus kx tk aq).map
              (fun r => r.rank) := List.map_congr_left (fun r _ => rfl)
          _ = _ := bm25QuestionRows_ranks env tok corpus kx tk aq)
      hnodup
  · intro qid
    rw [Studio.rowsFor, hrows, List.filter_append, List.filter_append]
    have hold : ((db.retrieval_rows.filter (fun r => r.run_id ≠ rid)).filter
        (fun r => r.run_id = rid ∧ r.qid = qid ∧ r.method = "hier")) = [] := by
      rw [List.filter_eq_nil_iff]
      intro r hr
      have := (List.mem_filter.mp hr).2
      simp only [decide_eq_true_eq] at this
      simp [this]
    have hbmf : (bm.2.map (Studio.persistBmRow rid sid)).filter (fun r =>
        r.run_id = rid ∧ r.qid = qid ∧ r.method = "hier") = [] := by
      rw [List.filter_eq_nil_iff]
      intro r hr
      obtain ⟨r0, _, hr0⟩ := List.mem_map.mp hr
      subst hr0
      simp [Studio.persistBmRow]
    rw [hold, hbmf, List.nil_append, List.nil_append]
    have hpred : (hier.2.map (Studio.persistHierRow rid sid)).filter (fun r =>
        r.run_id = rid ∧ r.qid = qid ∧ r.method = "hier")
        = (hier.2.map (Studio.persistHierRow rid sid)).filter
            (fun r => r.qid = qid) := by
      apply List.filter_congr
      intro r hr
      obtain ⟨r0, _, hr0⟩ := List.mem_map.mp hr
      subst hr0
      simp [Studio.persistHierRow]
    rw [hpred, hh2, List.map_flatMap]
    exact filter_flatMap_blocks (fun q => strTrim q.id) (fun r => r.qid)
      (fun r => r.rank)
      (fun q => (match Studio.hierQuestion env a py st pr da fk tk thr2 q with
        | .ok pr' => pr'.2
        | .error _ => []).map (Studio.persistHierRow rid sid)) qs qid
      (by
        intro aq r hr
        dsimp only at hr ⊢
        cases hq : Studio.hierQuestion env a py st pr da fk tk thr2 aq with
        | error e => rw [hq] at hr; simp at hr
        | ok pr' =>
          rw [hq] at hr
          obtain ⟨r0, hr0m, hr0⟩ := List.mem_map.mp hr
          subst hr0
          rw [Studio.hierQuestion] at hq
          split at hq
          · exact absurd hq (by simp)
          · split at hq
            · exact absurd hq (by simp)
            · injection hq with hq'
              rw [← hq'] at hr0m
              exact hierQuestionBody_rows_qid _ _ _ _ _ _ r0 hr0m)
      (by
        intro aq
        dsimp only
        rw [List.map_map, List.length_map]
        cases hq : Studio.hierQuestion env a py st pr da fk tk thr2 aq with
        | error e => simp
        | ok pr' =>
          rw [Studio.hierQuestion] at hq
          split at hq
          · exact absurd hq (by simp)
          · split at hq
            · exact absurd hq (by simp)
            · injection hq with hq'
              rw [← hq']
              calc ((Studio.hierQuestionBody _ _ _ _ _ _).2.map _)
                  = (Studio.hierQuestionBody _ _ _ _ _ _).2.map
                    (fun r => r.rank) := List.map_congr_left (fun r _ => rfl)
                _ = _ := hierQuestionBody_rows_ranks _ _ _ _ _ _)
      hnodup
  · refine ⟨_, hrows, ?_⟩
    intro r hr
    rcases List.mem_append.mp hr with hr | hr
    · obtain ⟨r0, _, hr0⟩ := List.mem_map.mp hr
      subst hr0
      rfl
    · obtain ⟨r0, _, hr0⟩ := List.mem_map.mp hr
      subst hr0
      rfl
  · refine ⟨(Studio.pyDictKeys (qs.map (fun q => q.id))).filterMap
        (Studio.metricRowFor rid sid bm.1 hier.1 qs), ?_, ?_⟩
    · rw [Studio.insertRunOutputs]
    · intro m hm
      obtain ⟨k, _, hk⟩ := List.mem_filterMap.mp hm
      exact metricRowFor_run_id _ _ _ _ _ _ _ hk

/-- Witness for C4 in the concrete healthy environment: after inserting the
run's outputs the persisted ranks for `(r1, q1, bm25)` and `(r1, q2, hier)`
are exactly `1..N`. -/
theorem rank_contiguity_witness :
    ((Studio.rowsFor (Studio.insertRunOutputs "r1" "s1" envC4.questions
        ((Studio.runBm25Eval envC4 (some "manual") [] envC4.questions 10
          1).toOption.getD default).1
        ((Studio.runBm25Eval envC4 (some "manual") [] envC4.questions 10
          1).toOption.getD default).2
        ((Studio.runHierEval envC4 (some "manual") [] none none none
          envC4.questions 10 1).toOption.getD default).1
        ((Studio.runHierEval envC4 (some "manual") [] none none none
          envC4.questions 10 1).toOption.getD default).2
        dbC2) "r1" "q1" "bm25").map (fun r => r.rank)
      = List.range' 1 ((Studio.rowsFor (Studio.insertRunOutputs "r1" "s1"
          envC4.questions
          ((Studio.runBm25Eval envC4 (some "manual") [] envC4.questions 10
            1).toOption.getD default).1
          ((Studio.runBm25Eval envC4 (some "manual") [] envC4.questions 10
            1).toOption.getD default).2
          ((Studio.runHierEval envC4 (some "manual") [] none none none
            envC4.questions 10 1).toOption.getD default).1
          ((Studio.runHierEval envC4 (some "manual") [] none none none
            envC4.questions 10 1).toOption.getD default).2
          dbC2) "r1" "q1" "bm25").length))
    ∧ ((Studio.rowsFor (Studio.insertRunOutputs "r1" "s1" envC4.questions
        ((Studio.runBm25Eval envC4 (some "manual") [] envC4.questions 10
          1).toOption.getD default).1
        ((Studio.runBm25Eval envC4 (some "manual") [] envC4.questions 10
          1).toOption.getD default).2
        ((Studio.runHierEval envC4 (some "manual") [] none none none
          envC4.questions 10 1).toOption.getD default).1
        ((Studio.runHierEval envC4 (some "manual") [] none none none
          envC4.questions 10 1).toOption.getD default).2
        dbC2) "r1" "q2" "hier").map (fun r => r.rank)
      = List.range' 1 ((Studio.rowsFor (Studio.insertRunOutputs "r1" "s1"
          envC4.questions
          ((Studio.runBm25Eval envC4 (some "manual") [] envC4.questions 10
            1).toOption.getD default).1
          ((Studio.runBm25Eval envC4 (some "manual") [] envC4.questions 10
            1).toOption.getD default).2
          ((Studio.runHierEval envC4 (some "manual") [] none none none
            envC4.questions 10 1).toOption.getD default).1
          ((Studio.runHierEval envC4 (some "manual") [] none none none
            envC4.questions 10 1).toOption.getD default).2
          dbC2) "r1" "q2" "hier").length)) := by
  have h := rank_contiguity envC4 (some "manual") [] none none none
    envC4.questions 10 1 1 "r1" "s1" dbC2
    ((Studio.runBm25Eval envC4 (some "manual") [] envC4.questions 10
      1).toOption.getD default)
    ((Studio.runHierEval envC4 (some "manual") [] none none none
      envC4.questions 10 1).toOption.getD default)
    (by decide) rfl rfl
  exact ⟨h.1 "q1", h.2.1 "q2"⟩

/-- Merging an empty override is the identity. -/
theorem dictUpdate_nil {V : Type} (d : List (String × V)) :
    Studio.dictUpdate d [] = d := by
  rw [Studio.dictUpdate]
  simp [Studio.lookupA]

/-- Overwriting the entry of a present key makes lookup return the new
value. -/
theorem lookupA_set {β : Type} (l : List (String × β)) (k : String) (b : β)
    (h : (Studio.lookupA l k).isSome = true) :
    Studio.lookupA (l.map (fun p => if p.1 = k then (p.1, b) else p)) k
      = some b := by
  induction l with
  | nil => simp [Studio.lookupA] at h
  | cons p t ih =>
    by_cases hp : p.1 = k
    · simp [Studio.lookupA, List.find?_cons, hp]
    · rw [Studio.lookupA, List.find?_cons] at h
      rw [List.map_cons, Studio.lookupA, List.find?_cons, if_neg hp]
      simp only [hp] at h ⊢
      simp only [decide_False, Bool.false_eq_true, if_false] at h ⊢
      exact ih h

/-- C10: `start_run` merges the request's `suite_spec_override` into the
suite's stored spec and persists the merged spec back onto the suite row
with a refreshed `updated_at` — so the override is not scoped to the run
being created: the new run's params carry the merged spec, and a later run
started with no override (or any reader of the suite) sees the merged spec
too. -/
theorem start_run_persists_merged_spec {V : Type} (db : Studio.QaDb V)
    (sid : String) (suite : Studio.SuiteRow V) (ov : List (String × V))
    (rid : String) (now : ℕ) (db' : Studio.QaDb V) (rid' : String)
    (hsuite : Studio.lookupA db.suites sid = some suite)
    (hok : Studio.startRun db sid (some ov) rid now = .ok (db', rid')) :
    Studio.lookupA db'.suites sid
      = some ⟨Studio.dictUpdate suite.suite_spec ov, now⟩
    ∧ (∃ run ∈ db'.runs, run.id = rid ∧ run.status = "queued"
        ∧ run.params_suite_spec = Studio.dictUpdate suite.suite_spec ov)
    ∧ (∀ (db'' : Studio.QaDb V) (rid2 now2 rid2'),
        Studio.startRun db' sid none rid2 now2 = .ok (db'', rid2') →
        ∃ run2 ∈ db''.runs, run2.id = rid2
          ∧ run2.params_suite_spec = Studio.dictUpdate suite.suite_spec ov) := by
  rw [Studio.startRun, hsuite] at hok
  dsimp only at hok
  injection hok with hpair
  have hdb : db' = (⟨db.suites.map (fun p =>
      if p.1 = sid then (p.1, ⟨Studio.dictUpdate suite.suite_spec ov, now⟩)
      else p),
      db.runs ++ [⟨rid, sid, "queued", Studio.dictUpdate suite.suite_spec ov,
        now, now⟩]⟩ : Studio.QaDb V) := by
    have := congrArg Prod.fst hpair
    simpa using this.symm
  have hlook : Studio.lookupA db'.suites sid
      = some ⟨Studio.dictUpdate suite.suite_spec ov, now⟩ := by
    rw [hdb]
    exact lookupA_set _ _ _ (by rw [hsuite]; rfl)
  refine ⟨hlook, ?_, ?_⟩
  · refine ⟨⟨rid, sid, "queued", Studio.dictUpdate suite.suite_spec ov,
      now, now⟩, ?_, rfl, rfl, rfl⟩
    rw [hdb]
    exact List.mem_append.mpr (Or.inr (List.mem_singleton.mpr rfl))
  · intro db'' rid2 now2 rid2' hok2
    rw [Studio.startRun, hlook] at hok2
    dsimp only at hok2
    injection hok2 with hpair2
    have hdb2 := congrArg Prod.fst hpair2
    simp only at hdb2
    refine ⟨⟨rid2, sid, "queued", Studio.dictUpdate
        (Studio.dictUpdate suite.suite_spec ov) [], now2, now2⟩, ?_, rfl, ?_⟩
    · rw [← hdb2]
      exact List.mem_append.mpr (Or.inr (List.mem_singleton.mpr rfl))
    · rw [dictUpdate_nil]

/-- Witness for C10 at a concrete one-suite store: overriding `top_k` and
adding a new key rewrites the stored suite spec. -/
theorem start_run_persists_merged_spec_witness :
    Studio.lookupA ((Studio.startRun
        ({ suites := [("s1", ⟨[("top_k", "10")], 0⟩)], runs := [] } :
          Studio.QaDb String)
        "s1" (some [("top_k", "5"), ("new", "x")]) "r1" 7).toOption.getD
        (⟨[], []⟩, "")).1.suites "s1"
      = some ⟨Studio.dictUpdate [("top_k", "10")]
          [("top_k", "5"), ("new", "x")], 7⟩
    ∧ Studio.dictUpdate [("top_k", "10")] [("top_k", "5"), ("new", "x")]
      = [("top_k", "5"), ("new", "x")] :=
  ⟨(start_run_persists_merged_spec
      ({ suites := [("s1", ⟨[("top_k", "10")], 0⟩)], runs := [] } :
        Studio.QaDb String)
      "s1" ⟨[("top_k", "10")], 0⟩ [("top_k", "5"), ("new", "x")] "r1" 7
      ((Studio.startRun
        ({ suites := [("s1", ⟨[("top_k", "10")], 0⟩)], runs := [] } :
          Studio.QaDb String)
        "s1" (some [("top_k", "5"), ("new", "x")]) "r1" 7).toOption.getD
        (⟨[], []⟩, "")).1
      ((Studio.startRun
        ({ suites := [("s1", ⟨[("top_k", "10")], 0⟩)], runs := [] } :
          Studio.QaDb String)
        "s1" (some [("top_k", "5"), ("new", "x")]) "r1" 7).toOption.getD
        (⟨[], []⟩, "")).2
      rfl rfl).1,
   by decide⟩

/-- Counterexample for C2 as stated: in the same concrete environment, one
question's embedding timeout does not get recorded as an error marker on
that question's row with the run completing — instead the run reaches
status `failed` (not `completed`), carries the propagated exception text,
and persists no rows at all (the other question's results are discarded
too). -/
theorem per_question_error_counterexample :
    Studio.statusOf (Studio.runEvalBackground envC2 "r1" "s1" specC2 dbC2) "r1"
      = some "failed"
    ∧ Studio.errorOf (Studio.runEvalBackground envC2 "r1" "s1" specC2 dbC2) "r1"
      = some "ReadTimeout: timed out"
    ∧ (Studio.runEvalBackground envC2 "r1" "s1" specC2 dbC2).retrieval_rows = []
    ∧ (some "failed" : Option String) ≠ some "completed" :=
  ⟨rfl, rfl, rfl, by simp⟩

end Mobius
